import Mathlib

/-!
Verification development for the Genesys Cloud ↔ Google Gemini multimodal
function (`src/index.js`).  The handler is shallowly embedded: JavaScript
values are modelled by `JsVal`, remote calls are modelled by an explicit
environment (`Env`) supplying each call's outcome, and every run returns the
ordered trace of network calls together with the object passed to the
callback.
-/

namespace GeminiFn

/-- Model of a JavaScript/JSON value.  `null` models both JSON null and the
places where the handler observes a missing property (absence itself is
modelled by `Option` at lookup sites). -/
inductive JsVal where
  | null : JsVal
  | bool (b : Bool) : JsVal
  | num (q : Rat) : JsVal
  | str (s : String) : JsVal
  | arr (elems : List JsVal) : JsVal
  | obj (fields : List (String × JsVal)) : JsVal

mutual
/-- Computable size of a value (the auto-generated `sizeOf` of this nested
inductive has no executable code, so we define our own). -/
def jsSize : JsVal → Nat
  | .null => 1
  | .bool _ => 1
  | .num _ => 1
  | .str _ => 1
  | .arr es => 1 + jsSizeList es
  | .obj fs => 1 + jsSizeFields fs

def jsSizeList : List JsVal → Nat
  | [] => 0
  | v :: vs => jsSize v + jsSizeList vs

def jsSizeFields : List (String × JsVal) → Nat
  | [] => 0
  | kv :: kvs => jsSize kv.2 + jsSizeFields kvs
end

/-- Fuelled boolean equality on `JsVal` (fuel bounds the nesting depth; any
fuel at least `jsSize` of the compared values is sufficient). -/
def beqF : Nat → JsVal → JsVal → Bool
  | 0, _, _ => false
  | n + 1, a, b =>
    match a, b with
    | .null, .null => true
    | .bool x, .bool y => x == y
    | .num x, .num y => x == y
    | .str x, .str y => x == y
    | .arr xs, .arr ys =>
        xs.length == ys.length && (xs.zip ys).all (fun p => beqF n p.1 p.2)
    | .obj xs, .obj ys =>
        xs.length == ys.length &&
          (xs.zip ys).all (fun p => p.1.1 == p.2.1 && beqF n p.1.2 p.2.2)
    | _, _ => false

theorem beqF_sound : ∀ (n : Nat) (a b : JsVal), beqF n a b = true → a = b := by
  intro n
  induction n with
  | zero => intro a b h; simp [beqF] at h
  | succ n ih =>
    intro a b h
    cases a <;> cases b <;> simp only [beqF] at h <;>
      try exact Bool.noConfusion h
    case null.null => rfl
    case bool.bool x y => rw [show x = y from by simpa using h]
    case num.num x y => rw [show x = y from by simpa using h]
    case str.str x y => rw [show x = y from by simpa using h]
    case arr.arr xs ys =>
      simp only [Bool.and_eq_true, beq_iff_eq] at h
      obtain ⟨hlen, hall⟩ := h
      congr 1
      clear * - hlen hall ih
      induction xs generalizing ys with
      | nil => cases ys with
        | nil => rfl
        | cons y ys => simp at hlen
      | cons x xs ihl =>
        cases ys with
        | nil => simp at hlen
        | cons y ys =>
          simp only [List.zip_cons_cons, List.all_cons, Bool.and_eq_true] at hall
          simp only [List.length_cons, Nat.succ.injEq] at hlen
          exact by rw [ih x y hall.1, ihl ys hlen hall.2]
    case obj.obj xs ys =>
      simp only [Bool.and_eq_true, beq_iff_eq] at h
      obtain ⟨hlen, hall⟩ := h
      congr 1
      clear * - hlen hall ih
      induction xs generalizing ys with
      | nil => cases ys with
        | nil => rfl
        | cons y ys => simp at hlen
      | cons x xs ihl =>
        cases ys with
        | nil => simp at hlen
        | cons y ys =>
          simp only [List.zip_cons_cons, List.all_cons, Bool.and_eq_true,
            beq_iff_eq] at hall
          simp only [List.length_cons, Nat.succ.injEq] at hlen
          have hv := ih x.2 y.2 hall.1.2
          have ht := ihl ys hlen hall.2
          exact by
            rw [ht]
            congr 1
            exact Prod.ext hall.1.1 hv

theorem beqF_refl : ∀ (n : Nat) (a : JsVal), jsSize a ≤ n → beqF n a a = true := by
  intro n
  induction n with
  | zero => intro a h; cases a <;> simp only [jsSize] at h <;> omega
  | succ n ih =>
    intro a h
    cases a with
    | null => simp [beqF]
    | bool b => simp [beqF]
    | num q => simp [beqF]
    | str s => simp [beqF]
    | arr xs =>
      simp only [beqF, Bool.and_eq_true, beq_self_eq_true, true_and]
      have hxs : jsSizeList xs ≤ n := by simp only [jsSize] at h; omega
      clear * - hxs ih
      revert hxs
      induction xs with
      | nil => intro _; simp
      | cons x t iht =>
        intro hxs
        simp only [List.zip_cons_cons, List.all_cons, Bool.and_eq_true]
        refine ⟨ih x ?_, iht ?_⟩ <;> (simp only [jsSizeList] at hxs; omega)
    | obj xs =>
      simp only [beqF, Bool.and_eq_true, beq_self_eq_true, true_and]
      have hxs : jsSizeFields xs ≤ n := by simp only [jsSize] at h; omega
      clear * - hxs ih
      revert hxs
      induction xs with
      | nil => intro _; simp
      | cons x t iht =>
        intro hxs
        simp only [List.zip_cons_cons, List.all_cons, Bool.and_eq_true,
          beq_self_eq_true, true_and]
        refine ⟨ih x.2 ?_, iht ?_⟩ <;> (simp only [jsSizeFields] at hxs; omega)

instance : DecidableEq JsVal := fun a b =>
  if h : beqF (jsSize a + jsSize b) a b = true then
    isTrue (beqF_sound _ a b h)
  else
    isFalse fun he => by
      subst he
      exact h (beqF_refl _ a (by omega))

/-- A JavaScript object: ordered key/value pairs (JS objects preserve
insertion order of string keys). -/
abbrev JsObj := List (String × JsVal)

/-- Property lookup on an object: first binding of the key (JS objects have
no duplicate keys, so first = only). `none` models `undefined`. -/
def lookupField (o : JsObj) (k : String) : Option JsVal :=
  (o.find? (fun kv => kv.1 == k)).map (fun kv => kv.2)

/-- Property access as done by `payload.x` / optional chaining: on
non-objects the handler's accesses yield `undefined` (modelled `none`). -/
def jsGetField (v : JsVal) (k : String) : Option JsVal :=
  match v with
  | .obj o => lookupField o k
  | _ => none

/-- Index access `x?.[i]` as used on the `candidates`/`parts` arrays. -/
def jsIndex (v : JsVal) (i : Nat) : Option JsVal :=
  match v with
  | .arr l => l.get? i
  | _ => none

/-- JavaScript truthiness of a value. -/
def isTruthy (v : JsVal) : Bool :=
  match v with
  | .null => false
  | .bool b => b
  | .num q => q != 0
  | .str s => s != ""
  | .arr _ => true
  | .obj _ => true

/-- Truthiness of a possibly-`undefined` value (`none` = `undefined`). -/
def jsTruthyOpt (v : Option JsVal) : Bool :=
  match v with
  | none => false
  | some w => isTruthy w

/-- Truthiness of a possibly-missing string (credentials, tokens). -/
def strTruthy (s : Option String) : Bool :=
  match s with
  | none => false
  | some t => t != ""

/-- `a || b` over possibly-missing strings, as used for the credential
fallback `(event.headers && event.headers.x) || (context.clientContext && …)`. -/
def pickCred (a b : Option String) : Option String :=
  if strTruthy a then a else b

/-- `startsWithL s pat`: `pat` is a prefix of `s` (list-level model of the
string operation, chosen so concrete runs evaluate by kernel reduction). -/
def startsWithL : List Char → List Char → Bool
  | _, [] => true
  | [], _ :: _ => false
  | c :: cs, p :: ps => c = p && startsWithL cs ps

def endsWithL (s pat : List Char) : Bool := startsWithL s.reverse pat.reverse

def strEndsWith (s pat : String) : Bool := endsWithL s.data pat.data

/-- Model of `String.prototype.toLowerCase` (ASCII case mapping; the URLs
the handler lowercases are ASCII). -/
def strLower (s : String) : String := String.mk (s.data.map Char.toLower)

/-- Whitespace stripped by `String.prototype.trim`: the ECMAScript
WhiteSpace set (tab, vertical tab, form feed, space, NBSP, ZWNBSP/BOM and
the Zs-category spaces U+1680, U+2000..U+200A, U+202F, U+205F, U+3000) plus
the LineTerminator set (LF, CR, U+2028, U+2029). -/
def isTrimWs (c : Char) : Bool :=
  c = ' ' || c = '\t' || c = '\n' || c = '\r' || c = '\x0c' || c = '\x0b'
    || c = '\u00a0' || c = '\ufeff' || c = '\u1680'
    || ('\u2000' ≤ c && c ≤ '\u200a')
    || c = '\u2028' || c = '\u2029' || c = '\u202f' || c = '\u205f' || c = '\u3000'

/-- Model of `String.prototype.trim`: strip leading and trailing
whitespace, leaving the interior untouched. -/
def strTrim (s : String) : String :=
  String.mk (((s.data.dropWhile isTrimWs).reverse.dropWhile isTrimWs).reverse)

/-- JSON string escaping used by the model of `JSON.stringify`. -/
def escapeJsonChar (c : Char) : String :=
  if c = '"' then "\\\""
  else if c = '\\' then "\\\\"
  else if c = '\n' then "\\n"
  else if c = '\t' then "\\t"
  else if c = '\r' then "\\r"
  else String.singleton c

def escapeJson (s : String) : String :=
  String.join (s.data.map escapeJsonChar)

/-- Rendering of a numeric value inside `JSON.stringify` output.  Integral
values render as in JavaScript; non-integral rationals use a fractional
rendering (the handler never inspects this text, it only forwards it inside
error details). -/
def renderNum (q : Rat) : String :=
  if q.den = 1 then toString q.num else toString q.num ++ "/" ++ toString q.den

/-- Fuelled rendering behind the model of `JSON.stringify` (fuel bounds the
nesting depth; the wrapper below always supplies enough). -/
def jsonStringifyF : Nat → JsVal → String
  | 0, _ => ""
  | n + 1, v =>
    match v with
    | .null => "null"
    | .bool true => "true"
    | .bool false => "false"
    | .num q => renderNum q
    | .str s => "\"" ++ escapeJson s ++ "\""
    | .arr es => "[" ++ String.intercalate "," (es.map (jsonStringifyF n)) ++ "]"
    | .obj fs =>
        "\x7b" ++
          String.intercalate ","
            (fs.map (fun kv => "\"" ++ escapeJson kv.1 ++ "\":" ++ jsonStringifyF n kv.2))
          ++ "\x7d"

/-- Model of the `JSON.stringify` builtin as applied to parsed JSON data
(used in the upload helper's error messages). -/
def jsonStringify (v : JsVal) : String := jsonStringifyF (jsSize v) v

/-! ### Model of the `JSON.parse` builtin -/

def isJsonWs (c : Char) : Bool :=
  c = ' ' || c = '\t' || c = '\n' || c = '\r'

def skipWs : List Char → List Char
  | [] => []
  | c :: cs => if isJsonWs c then skipWs cs else c :: cs

def hexVal (c : Char) : Option Nat :=
  if '0' ≤ c ∧ c ≤ '9' then some (c.toNat - 48)
  else if 'a' ≤ c ∧ c ≤ 'f' then some (c.toNat - 87)
  else if 'A' ≤ c ∧ c ≤ 'F' then some (c.toNat - 55)
  else none

/-- Body of a JSON string literal, after the opening quote. -/
def parseStringBody (acc : List Char) : List Char → Option (String × List Char)
  | [] => none
  | c :: cs =>
    if c = '"' then some (String.mk acc.reverse, cs)
    else if c = '\\' then
      match cs with
      | [] => none
      | e :: cs2 =>
        if e = '"' then parseStringBody ('"' :: acc) cs2
        else if e = '\\' then parseStringBody ('\\' :: acc) cs2
        else if e = '/' then parseStringBody ('/' :: acc) cs2
        else if e = 'b' then parseStringBody ('\x08' :: acc) cs2
        else if e = 'f' then parseStringBody ('\x0c' :: acc) cs2
        else if e = 'n' then parseStringBody ('\n' :: acc) cs2
        else if e = 'r' then parseStringBody ('\r' :: acc) cs2
        else if e = 't' then parseStringBody ('\t' :: acc) cs2
        else if e = 'u' then
          match cs2 with
          | h1 :: h2 :: h3 :: h4 :: cs3 =>
            match hexVal h1, hexVal h2, hexVal h3, hexVal h4 with
            | some a, some b, some c2, some d =>
                parseStringBody (Char.ofNat (((a * 16 + b) * 16 + c2) * 16 + d) :: acc) cs3
            | _, _, _, _ => none
          | _ => none
        else none
    else if c.toNat < 32 then none
    else parseStringBody (c :: acc) cs

def digitsToNat (ds : List Char) : Nat :=
  ds.foldl (fun n c => n * 10 + (c.toNat - 48)) 0

/-- A JSON number literal (sign, integer part without leading zeros,
optional fraction, optional exponent). -/
def parseNumber (cs : List Char) : Option (Rat × List Char) :=
  let signed := match cs with
    | '-' :: t => (true, t)
    | _ => (false, cs)
  let neg := signed.1
  let cs1 := signed.2
  match cs1 with
  | [] => none
  | c :: _ =>
    if ¬ c.isDigit then none
    else
      let ip := List.span Char.isDigit cs1
      let ds := ip.1
      let rest := ip.2
      if 1 < ds.length ∧ ds.head? = some '0' then none
      else
        let intPart := digitsToNat ds
        let fr : Option (Nat × Nat × List Char) :=
          match rest with
          | '.' :: t =>
            let fp := List.span Char.isDigit t
            if fp.1.isEmpty then none
            else some (digitsToNat fp.1, 10 ^ fp.1.length, fp.2)
          | _ => some (0, 1, rest)
        match fr with
        | none => none
        | some (fracNum, fracDen, rest2) =>
          let ex : Option (Bool × Nat × List Char) :=
            match rest2 with
            | e :: t =>
              if e = 'e' ∨ e = 'E' then
                let se : Bool × List Char := match t with
                  | '+' :: u => (false, u)
                  | '-' :: u => (true, u)
                  | _ => (false, t)
                let ep := List.span Char.isDigit se.2
                if ep.1.isEmpty then none
                else some (se.1, digitsToNat ep.1, ep.2)
              else some (false, 0, rest2)
            | [] => some (false, 0, rest2)
          match ex with
          | none => none
          | some (expNeg, expVal, rest3) =>
            let numAbs : Nat :=
              (intPart * fracDen + fracNum) * (if expNeg then 1 else 10 ^ expVal)
            let den : Nat := fracDen * (if expNeg then 10 ^ expVal else 1)
            let numer : Int := if neg then -(numAbs : Int) else (numAbs : Int)
            some (mkRat numer den, rest3)

mutual
/-- Fuelled recursive-descent JSON value parser (fuel `2·length + 4` always
suffices, see `jsonParseE`). -/
def parseVal : Nat → List Char → Option (JsVal × List Char)
  | 0, _ => none
  | fuel + 1, cs =>
    match skipWs cs with
    | [] => none
    | c :: cs1 =>
      if c = 'n' then
        match cs1 with
        | 'u' :: 'l' :: 'l' :: r => some (.null, r)
        | _ => none
      else if c = 't' then
        match cs1 with
        | 'r' :: 'u' :: 'e' :: r => some (.bool true, r)
        | _ => none
      else if c = 'f' then
        match cs1 with
        | 'a' :: 'l' :: 's' :: 'e' :: r => some (.bool false, r)
        | _ => none
      else if c = '"' then
        (parseStringBody [] cs1).map (fun p => (.str p.1, p.2))
      else if c = '[' then
        match skipWs cs1 with
        | ']' :: r => some (.arr [], r)
        | cs2 => parseElems fuel cs2 []
      else if c = '\x7b' then
        match skipWs cs1 with
        | '\x7d' :: r => some (.obj [], r)
        | cs2 => parseMembers fuel cs2 []
      else if c = '-' ∨ c.isDigit then
        (parseNumber (c :: cs1)).map (fun p => (.num p.1, p.2))
      else none

def parseElems : Nat → List Char → List JsVal → Option (JsVal × List Char)
  | 0, _, _ => none
  | fuel + 1, cs, acc =>
    match parseVal fuel cs with
    | none => none
    | some (v, r) =>
      match skipWs r with
      | ',' :: r2 => parseElems fuel r2 (v :: acc)
      | ']' :: r2 => some (.arr (v :: acc).reverse, r2)
      | _ => none

def parseMembers : Nat → List Char → List (String × JsVal) → Option (JsVal × List Char)
  | 0, _, _ => none
  | fuel + 1, cs, acc =>
    match skipWs cs with
    | '"' :: cs1 =>
      match parseStringBody [] cs1 with
      | none => none
      | some (k, r) =>
        match skipWs r with
        | ':' :: r2 =>
          match parseVal fuel r2 with
          | none => none
          | some (v, r3) =>
            match skipWs r3 with
            | ',' :: r4 => parseMembers fuel r4 ((k, v) :: acc)
            | '\x7d' :: r4 => some (.obj ((k, v) :: acc).reverse, r4)
            | _ => none
        | _ => none
    | _ => none
end

/-- Model of the `JSON.parse` builtin: parses the full string (modulo
surrounding whitespace) or reports an error message (the model uses fixed
message texts where engines vary). -/
def jsonParseE (s : String) : Except String JsVal :=
  match parseVal (2 * s.length + 4) s.data with
  | some (v, rest) =>
      if (skipWs rest).isEmpty then .ok v
      else .error "Unexpected non-whitespace character after JSON data"
  | none => .error "Unexpected token in JSON"

def jsonParse (s : String) : Option JsVal := (jsonParseE s).toOption

/-! ### Input validation (`inputSchema` / `validateInput`) -/

/-- `inputSchema.required`. -/
def inputRequired : List String := ["user_message"]

/-- `Object.keys(inputSchema.properties)` with each property's declared
type, in insertion order. -/
def inputProperties : List (String × String) :=
  [("pdfDownloadUrl", "string"), ("imageDownloadUrl", "string"),
   ("audioDownloadUrl", "string"), ("model", "string"),
   ("system_message", "string"), ("user_message", "string"),
   ("temperature", "number"), ("max_tokens", "integer"),
   ("isJsonResponse", "boolean"), ("responseSchema", "string")]

/-- The type check inside `validateInput`'s property loop.  Note the source
only checks the `string`/`number`/`boolean` cases, so an `integer` property
(`max_tokens`) is never type-checked. -/
def typeErrFor (propertyName schemaType : String) (v : JsVal) : Option String :=
  if schemaType = "string" then
    match v with
    | .str _ => none
    | _ => some ("Property \x27" ++ propertyName ++ "\x27 should be a string")
  else if schemaType = "number" then
    match v with
    | .num _ => none
    | _ => some ("Property \x27" ++ propertyName ++ "\x27 should be a number")
  else if schemaType = "boolean" then
    match v with
    | .bool _ => none
    | _ => some ("Property \x27" ++ propertyName ++ "\x27 should be a boolean")
  else none

/-- `validateInput` on an object payload: first missing required field,
then the first type violation, in schema order. -/
def validateFields (o : JsObj) : Option String :=
  match inputRequired.find? (fun r => (lookupField o r).isNone) with
  | some r => some ("Missing required property: " ++ r)
  | none =>
    (inputProperties.filterMap (fun pt =>
      match lookupField o pt.1 with
      | none => none
      | some v => typeErrFor pt.1 pt.2 v)).head?

/-- `validateInput` on an arbitrary payload.  The `in` operator throws a
`TypeError` on primitive payloads (modelled by `.error ()`, which the
handler's top-level catch turns into a 500); on an array every required
name is absent. -/
def validateInput (data : JsVal) : Except Unit (Option String) :=
  match data with
  | .obj o => .ok (validateFields o)
  | .arr _ => .ok (some ("Missing required property: " ++ "user_message"))
  | _ => .error ()

/-! ### Output shaping (`outputSchema` / `formatOutput`) -/

/-- `Object.keys(outputSchema.properties)` in insertion order. -/
def outputKeys : List String :=
  ["status", "message", "geminiResponse", "textOutput", "finishReason",
   "usage", "detail"]

/-- `outputSchema.required`. -/
def outputRequired : List String := ["status", "message"]

/-- The first loop of `formatOutput`: copy declared fields, in schema
order. -/
def fmtKnown (output : JsObj) : JsObj :=
  outputKeys.filterMap (fun k => (lookupField output k).map (fun v => (k, v)))

/-- `formatOutput`: copy declared fields in schema order, fall back to a
fixed 500 object when a required field is missing, then pass through the
remaining fields of the argument. -/
def formatOutput (output : JsObj) : JsObj :=
  if outputRequired.all (fun r => ((fmtKnown output).find? (fun kv => kv.1 == r)).isSome) then
    fmtKnown output ++
      output.filter (fun kv => ((fmtKnown output).find? (fun kw => kw.1 == kv.1)).isNone)
  else
    [("status", .num 500),
     ("message", .str "Internal error: missing required output property")]

/-- Every response the handler emits is `formatOutput` of an object whose
first two fields are a numeric `status` and a string `message`. -/
def mkOut (status : Rat) (message : String) (rest : JsObj) : JsObj :=
  formatOutput (("status", .num status) :: ("message", .str message) :: rest)

/-! ### MIME type guessing (`guessMimeType`) -/

def guessMimeType (url : String) (fileType : String) : String :=
  let lower := strLower url
  if fileType = "pdf" then "application/pdf"
  else if fileType = "image" then
    if strEndsWith lower ".png" then "image/png"
    else if strEndsWith lower ".jpeg" || strEndsWith lower ".jpg" then "image/jpeg"
    else if strEndsWith lower ".webp" then "image/webp"
    else "image/jpeg"
  else if fileType = "audio" then
    if strEndsWith lower ".wav" then "audio/wav"
    else if strEndsWith lower ".mp3" then "audio/mp3"
    else if strEndsWith lower ".ogg" then "audio/ogg"
    else "audio/mp3"
  else ""

/-! ### File download (`fetchFile`) -/

/-- JavaScript regex `.` does not match line terminators. -/
def isLineTerminator (c : Char) : Bool :=
  c = '\n' || c = '\r' || c = '\u2028' || c = '\u2029'

/-- Match against `^https:\/\/api-downloads\.([^/]+)\/api\/v2\/downloads\/(.+)$`:
the domain is the (non-empty) segment up to the first `/` after the fixed
prefix, the download id is the (non-empty) remainder after the fixed path,
in which `.` forbids line terminators. -/
def genesysMatch (url : String) : Option (String × String) :=
  let cs := url.data
  if startsWithL cs "https://api-downloads.".data then
    let rest := cs.drop 22
    let domain := rest.takeWhile (fun c => c ≠ '/')
    let tail := rest.drop domain.length
    if domain ≠ [] ∧ startsWithL tail "/api/v2/downloads/".data then
      let downloadId := tail.drop 18
      if downloadId ≠ [] ∧ downloadId.all (fun c => ¬ isLineTerminator c) then
        some (String.mk domain, String.mk downloadId)
      else none
    else none
  else none

/-- Network trace entries: one per remote call the handler can make.
`conversationLookup` only occurs in the spec-modelled conversation-file
flow (that code is not part of this source snapshot). -/
inductive Part where
  | text (value : String)
  | fileData (mimeType : String) (fileUri : JsVal)
deriving DecidableEq

structure GenerationConfig where
  temperature : JsVal
  maxOutputTokens : JsVal
  responseMimeType : Option String
  responseSchema : Option JsVal
deriving DecidableEq

structure RequestBody where
  parts : List Part
  system_instruction : Option String
  generationConfig : GenerationConfig
deriving DecidableEq

inductive NetCall where
  | tokenExchange (domain : String)
  | authGet (domain downloadId : String)
  | plainGet (url : String)
  | uploadStart (mimeType displayName : String)
  | uploadFinalize (sessionUrl : String)
  | generate (model : String) (body : RequestBody)
  | conversationLookup (conversationId : String)
deriving DecidableEq

/-- Error observed from the finalize call (axios errors carry an optional
HTTP status in `err.response`). -/
structure UploadErr where
  status : Option Nat
  msg : String

/-- Error observed from the generateContent call. -/
structure GenErr where
  status : Option Nat
  data : Option JsVal
  msg : String

/-- Environment supplying each remote call's outcome.  File contents are
abstracted to a bare `Nat`. -/
structure Env where
  tokenResult : String → Except String (Option String)
  authDownload : String → String → Except String Nat
  plainDownload : String → Except String Nat
  uploadStart : String → String → Nat → Except String (Option String × JsVal)
  uploadFinalize : String → Nat → Except UploadErr JsVal
  generate : String → RequestBody → Except GenErr JsVal

structure GcCreds where
  gcClientId : Option String
  gcClientSecret : Option String

/-- `event.headers` and `context.clientContext` credential fields. -/
structure Ctx where
  hdrGcClientId : Option String
  hdrGcClientSecret : Option String
  ccGcClientId : Option String
  ccGcClientSecret : Option String
  ccGoogleApiKey : Option String

/-- `fetchFile`: Genesys stored-download URLs do a token exchange and an
authenticated download; all other URLs do one plain GET. -/
def fetchFile (url : String) (fileType : String) (credentials : GcCreds) (env : Env) :
    List NetCall × Except String Nat :=
  match genesysMatch url with
  | some (domain, downloadId) =>
    if ¬ strTruthy credentials.gcClientId ∨ ¬ strTruthy credentials.gcClientSecret then
      ([], .error "Missing gcClientId or gcClientSecret in headers or clientContext for Genesys Cloud file download.")
    else
      match env.tokenResult domain with
      | .error m =>
          ([.tokenExchange domain],
            .error ("Failed to obtain Genesys Cloud OAuth token: " ++ m))
      | .ok accessToken =>
        if ¬ strTruthy accessToken then
          ([.tokenExchange domain], .error "Failed to obtain access token from Genesys Cloud.")
        else
          match env.authDownload domain downloadId with
          | .error m =>
              ([.tokenExchange domain, .authGet domain downloadId],
                .error ("Error downloading file from Genesys Cloud: " ++ m))
          | .ok bytes => ([.tokenExchange domain, .authGet domain downloadId], .ok bytes)
  | none =>
    match env.plainDownload url with
    | .error m => ([.plainGet url], .error ("Error downloading file: " ++ m))
    | .ok bytes => ([.plainGet url], .ok bytes)

/-- `uploadFile`: two-phase resumable upload.  A missing (or empty, hence
falsy) session URL or a falsy `file.uri` in the finalize response is an
error carrying `JSON.stringify` of the provider's response body. -/
def uploadFile (fileBytes : Nat) (mimeType : String) (displayName : String) (env : Env) :
    List NetCall × Except UploadErr JsVal :=
  match env.uploadStart mimeType displayName fileBytes with
  | .error m => ([.uploadStart mimeType displayName], .error ⟨none, m⟩)
  | .ok (none, metaData) =>
      ([.uploadStart mimeType displayName],
        .error ⟨none, "Failed to start resumable upload: " ++ jsonStringify metaData⟩)
  | .ok (some uploadUrl, metaData) =>
    if uploadUrl = "" then
      -- an empty header value is falsy, `if (!uploadUrl)` fires
      ([.uploadStart mimeType displayName],
        .error ⟨none, "Failed to start resumable upload: " ++ jsonStringify metaData⟩)
    else
      match env.uploadFinalize uploadUrl fileBytes with
      | .error e => ([.uploadStart mimeType displayName, .uploadFinalize uploadUrl], .error e)
      | .ok finalizeData =>
        match (jsGetField finalizeData "file").bind (fun f => jsGetField f "uri") with
        | some u =>
          if isTruthy u then
            ([.uploadStart mimeType displayName, .uploadFinalize uploadUrl], .ok u)
          else
            ([.uploadStart mimeType displayName, .uploadFinalize uploadUrl],
              .error ⟨none, "Failed to finalize upload: " ++ jsonStringify finalizeData⟩)
        | none =>
            ([.uploadStart mimeType displayName, .uploadFinalize uploadUrl],
              .error ⟨none, "Failed to finalize upload: " ++ jsonStringify finalizeData⟩)

/-- A staged file as pushed onto `fileUploads`. -/
structure Upload where
  modality : String
  file_uri : JsVal
  mime_type : String
deriving DecidableEq

def filePartOf (u : Upload) : Part := .fileData u.mime_type u.file_uri

/-- Step 3 of the handler: the content-parts ordering policy. -/
def buildParts : List Upload → String → List Part
  | [], userPrompt => [.text userPrompt]
  | [u], userPrompt =>
    if u.modality = "pdf" then
      (if userPrompt ≠ "" then [.text userPrompt] else []) ++ [filePartOf u]
    else
      filePartOf u :: (if userPrompt ≠ "" then [.text userPrompt] else [])
  | us, userPrompt =>
      us.map filePartOf ++ (if userPrompt ≠ "" then [.text userPrompt] else [])

/-- `err.response?.status || 400`. -/
def numOr400 (st : Option Nat) : Rat :=
  match st with
  | some n => if n ≠ 0 then (n : Rat) else 400
  | none => 400

/-- One modality's download-and-upload block of the handler (the three
blocks are identical up to URL key, file type, display name and message
texts). -/
def processModality (o : JsObj) (credentials : GcCreds) (env : Env)
    (urlKey fileType displayName downloadMsg uploadMsg : String) :
    List NetCall × Except JsObj (Option Upload) :=
  match lookupField o urlKey with
  | none => ([], .ok none)
  | some urlVal =>
    if ¬ isTruthy urlVal then ([], .ok none)
    else
      match urlVal with
      | .str url =>
        match fetchFile url fileType credentials env with
        | (t, .error m) =>
            (t, .error (mkOut 400 downloadMsg [("detail", .str m)]))
        | (t, .ok bytes) =>
          match uploadFile bytes (guessMimeType url fileType) displayName env with
          | (t2, .error e) =>
              (t ++ t2, .error (mkOut (numOr400 e.status) uploadMsg [("detail", .str e.msg)]))
          | (t2, .ok fileUri) =>
              (t ++ t2, .ok (some ⟨fileType, fileUri, guessMimeType url fileType⟩))
      | _ =>
          -- unreachable after validation (the URL fields are type-checked as
          -- strings): `url.match` would throw, caught by the per-file
          -- download handler
          ([], .error (mkOut 400 downloadMsg [("detail", .str "url.match is not a function")]))

/-- Step 2 of the handler: PDF, then image, then audio. -/
def collectUploads (o : JsObj) (credentials : GcCreds) (env : Env) :
    List NetCall × Except JsObj (List Upload) :=
  match processModality o credentials env "pdfDownloadUrl" "pdf" "GenesysPDF"
      "Failed to download PDF" "Failed to upload PDF" with
  | (t1, .error r) => (t1, .error r)
  | (t1, .ok u1) =>
    match processModality o credentials env "imageDownloadUrl" "image" "GenesysImage"
        "Failed to download image" "Failed to upload image" with
    | (t2, .error r) => (t1 ++ t2, .error r)
    | (t2, .ok u2) =>
      match processModality o credentials env "audioDownloadUrl" "audio" "GenesysAudio"
          "Failed to download audio" "Failed to upload audio" with
      | (t3, .error r) => (t1 ++ t2 ++ t3, .error r)
      | (t3, .ok u3) => (t1 ++ t2 ++ t3, .ok (u1.toList ++ u2.toList ++ u3.toList))

/-- The optional chain `data?.candidates?.[0]?.content?.parts?.[0]?.text`. -/
def textPath (data : JsVal) : Option JsVal :=
  ((((jsGetField data "candidates").bind (fun c => jsIndex c 0)).bind
      (fun c => jsGetField c "content")).bind
      (fun c => jsGetField c "parts")).bind
      (fun p => (jsIndex p 0).bind (fun q => jsGetField q "text"))

/-- The optional chain `data?.candidates?.[0]?.finishReason`. -/
def finishReasonPath (data : JsVal) : Option JsVal :=
  ((jsGetField data "candidates").bind (fun c => jsIndex c 0)).bind
    (fun c => jsGetField c "finishReason")

/-- `data?.candidates?.[0]?.content?.parts?.[0]?.text || ""`. -/
def extractTextRaw (data : JsVal) : JsVal :=
  match textPath data with
  | some v => if isTruthy v then v else .str ""
  | none => .str ""

/-- `data?.candidates?.[0]?.finishReason || ""`. -/
def extractFinishReason (data : JsVal) : JsVal :=
  match finishReasonPath data with
  | some v => if isTruthy v then v else .str ""
  | none => .str ""

/-- `data?.usageMetadata || {}` (braces denote the empty object). -/
def extractUsage (data : JsVal) : JsVal :=
  match jsGetField data "usageMetadata" with
  | some v => if isTruthy v then v else .obj []
  | none => .obj []

/-- `textOutput.trim()`: trimming a truthy non-string throws a `TypeError`
that reaches the handler's top-level catch. -/
def trimStep (v : JsVal) : Except String JsVal :=
  match v with
  | .str s => .ok (.str (strTrim s))
  | _ => .error "textOutput.trim is not a function"

/-- `err.response?.data || err.message` on a generateContent failure. -/
def genDetail (e : GenErr) : JsVal :=
  match e.data with
  | some d => if isTruthy d then d else .str e.msg
  | none => .str e.msg

/-- The handler body after a validated object payload.  Returns the ordered
network-call trace and the object passed to the callback. -/
def runValidated (o : JsObj) (ctx : Ctx) (env : Env) : List NetCall × JsObj :=
  let gcCredentials : GcCreds :=
    ⟨pickCred ctx.hdrGcClientId ctx.ccGcClientId,
      pickCred ctx.hdrGcClientSecret ctx.ccGcClientSecret⟩
  -- `payload.model || "gemini-2.0-flash-exp"`; a non-string `model` is
  -- rejected by validation, so only the string case is reachable here
  let model := match lookupField o "model" with
    | some (.str s) => if s ≠ "" then s else "gemini-2.0-flash-exp"
    | _ => "gemini-2.0-flash-exp"
  let systemText := match lookupField o "system_message" with
    | some (.str s) => s
    | _ => ""
  let userPrompt := match lookupField o "user_message" with
    | some (.str s) => s
    | _ => ""
  let temperature := match lookupField o "temperature" with
    | some v => v
    | none => .num (mkRat 3 10)
  let maxTokens := match lookupField o "max_tokens" with
    | some v => v
    | none => .num 1024
  if ¬ strTruthy ctx.ccGoogleApiKey then
    ([], mkOut 400 "Missing googleApiKey in context.clientContext" [])
  else
    match collectUploads o gcCredentials env with
    | (t, .error response) => (t, response)
    | (t, .ok fileUploads) =>
      let parts := buildParts fileUploads userPrompt
      let sysInstr := if systemText ≠ "" then some systemText else none
      let isJson := jsTruthyOpt (lookupField o "isJsonResponse")
      let schemaVal := lookupField o "responseSchema"
      let schemaStep : Except JsObj GenerationConfig :=
        if isJson ∧ jsTruthyOpt schemaVal then
          match schemaVal with
          | some (.str schemaStr) =>
            match jsonParseE schemaStr with
            | .ok parsedSchema =>
                .ok ⟨temperature, maxTokens, some "application/json", some parsedSchema⟩
            | .error m =>
                .error (mkOut 400 "Invalid responseSchema JSON" [("detail", .str m)])
          | _ =>
            -- unreachable: a truthy `responseSchema` passed string validation
            .error (mkOut 400 "Invalid responseSchema JSON"
              [("detail", .str "unreachable: non-string responseSchema")])
        else .ok ⟨temperature, maxTokens, none, none⟩
      match schemaStep with
      | .error response => (t, response)
      | .ok generationConfig =>
        let requestBody : RequestBody := ⟨parts, sysInstr, generationConfig⟩
        (t ++ [.generate model requestBody],
          match env.generate model requestBody with
          | .error e =>
              mkOut (numOr400 e.status) "Failed to call generateContent"
                [("detail", genDetail e)]
          | .ok data =>
            match (if isJson then trimStep (extractTextRaw data) else .ok (extractTextRaw data)) with
            | .error msg => mkOut 500 "Internal error" [("detail", .str msg)]
            | .ok textOutput =>
                mkOut 200 "success"
                  [("geminiResponse", data), ("textOutput", textOutput),
                    ("finishReason", extractFinishReason data),
                    ("usage", extractUsage data)])

/-- The handler on a determined payload: validation, then the rest.  The
`.error ()` validation outcome models the `TypeError` thrown by `in` on a
primitive payload, reported by the top-level catch as a 500. -/
def runWithPayload (payload : JsVal) (ctx : Ctx) (env : Env) : List NetCall × JsObj :=
  match validateInput payload with
  | .error () =>
      ([], mkOut 500 "Internal error"
        [("detail", .str "Cannot use the in operator to search for user_message in payload")])
  | .ok (some inputError) => ([], mkOut 400 ("Invalid input: " ++ inputError) [])
  | .ok none =>
    match payload with
    | .obj o => runValidated o ctx env
    | _ =>
        -- unreachable: validation succeeds only on objects
        ([], mkOut 500 "Internal error" [("detail", .str "unreachable")])

/-- The exported handler: payload selection (a truthy `rawRequest` string is
parsed, else the event itself is the payload) followed by `runWithPayload`. -/
def handler (rawRequest : Option String) (eventPayload : JsVal) (ctx : Ctx) (env : Env) :
    List NetCall × JsObj :=
  match rawRequest with
  | some raw =>
    if raw = "" then runWithPayload eventPayload ctx env
    else
      match jsonParseE raw with
      | .error m => ([], mkOut 400 "rawRequest is not valid JSON" [("detail", .str m)])
      | .ok payload => runWithPayload payload ctx env
  | none => runWithPayload eventPayload ctx env

/-- The generateContent requests occurring in a trace. -/
def generateBodies (t : List NetCall) : List RequestBody :=
  t.filterMap (fun c =>
    match c with
    | .generate _ b => some b
    | _ => none)

/-- The output contract: a numeric `status` and a string `message`. -/
def isWellFormedOut (o : JsObj) : Prop :=
  (∃ n : Rat, lookupField o "status" = some (.num n)) ∧
  (∃ m : String, lookupField o "message" = some (.str m))

/-! ### Spec-modelled conversation-file validation

The repository README documents a deployed handler variant with the
conversation-file feature (`processLastConversationFile` is a required
boolean and `conversationId` is mandatory when it is true); the source of
that variant is not part of this snapshot (`src/index.js` predates the
feature; its `inputSchema` knows neither field). -/

/-- Modelled from the spec: validation of the conversation-file fields in
the deployed variant — `processLastConversationFile` is required, and when
it is `true`, `conversationId` is required (spec §3 invariant, §4.1, §6). -/
def validateConversationInput (o : JsObj) : Option String :=
  match lookupField o "processLastConversationFile" with
  | none => some "Missing required property: processLastConversationFile"
  | some v =>
    if v = .bool true then
      match lookupField o "conversationId" with
      | none => some "Missing required property: conversationId"
      | some _ => none
    else none

/-- Modelled from the spec: in the deployed variant, validation runs before
the conversation-messages lookup, so a validation failure produces an error
response with an empty network trace (spec §4.1 "processing halts
immediately" and §8 "prior to any conversation lookup"). -/
def specConversationStep (o : JsObj) : List NetCall × Option JsObj :=
  match validateConversationInput o with
  | some e => ([], some (mkOut 400 ("Invalid input: " ++ e) []))
  | none =>
    match lookupField o "processLastConversationFile", lookupField o "conversationId" with
    | some (.bool true), some (.str cid) => ([.conversationLookup cid], none)
    | _, _ => ([], none)

/-! ## Lemmas -/

theorem lookupField_cons_self (k : String) (v : JsVal) (rest : JsObj) :
    lookupField ((k, v) :: rest) k = some v := by
  simp [lookupField]

theorem lookupField_cons_ne (k : String) (v : JsVal) (rest : JsObj) (q : String)
    (h : ¬ k = q) : lookupField ((k, v) :: rest) q = lookupField rest q := by
  simp [lookupField, List.find?_cons, h]

theorem mem_of_lookupField {o : JsObj} {k : String} {v : JsVal}
    (h : lookupField o k = some v) : (k, v) ∈ o := by
  unfold lookupField at h
  cases hf : o.find? (fun kv => kv.1 == k) with
  | none => rw [hf] at h; simp at h
  | some kv =>
    rw [hf] at h
    simp only [Option.map_some', Option.some.injEq] at h
    have hm := List.mem_of_find?_eq_some hf
    have hp := List.find?_some hf
    simp only [beq_iff_eq] at hp
    obtain ⟨a, b⟩ := kv
    simp only at hp h
    subst hp
    subst h
    exact hm

theorem lookupField_of_mem {o : JsObj} (hn : (o.map Prod.fst).Nodup) {k : String} {v : JsVal}
    (h : (k, v) ∈ o) : lookupField o k = some v := by
  induction o with
  | nil => simp at h
  | cons a t ih =>
    obtain ⟨a1, a2⟩ := a
    rcases List.mem_cons.mp h with h1 | h1
    · rw [← h1]
      exact lookupField_cons_self ..
    · have hnc : (∀ x : JsVal, (a1, x) ∉ t) ∧ (t.map Prod.fst).Nodup := by
        simpa using hn
      have hne : a1 ≠ k := by
        intro he
        subst he
        exact hnc.1 v h1
      rw [lookupField_cons_ne a1 a2 t k hne]
      exact ih hnc.2 h1

theorem mem_fmtKnown {out : JsObj} {k : String} {v : JsVal} :
    (k, v) ∈ fmtKnown out ↔ (k ∈ outputKeys ∧ lookupField out k = some v) := by
  unfold fmtKnown
  rw [List.mem_filterMap]
  constructor
  · rintro ⟨a, ha, hfa⟩
    cases hl : lookupField out a with
    | none => rw [hl] at hfa; simp at hfa
    | some w =>
      rw [hl] at hfa
      simp only [Option.map_some', Option.some.injEq, Prod.mk.injEq] at hfa
      obtain ⟨h1, h2⟩ := hfa
      subst h1
      subst h2
      exact ⟨ha, hl⟩
  · rintro ⟨hk, hl⟩
    exact ⟨k, hk, by simp [hl]⟩

theorem find?_key_isSome_iff (l : JsObj) (k : String) :
    ((l.find? (fun kv => kv.1 == k)).isSome = true) ↔ ∃ v, (k, v) ∈ l := by
  rw [List.find?_isSome]
  constructor
  · rintro ⟨kv, hm, hp⟩
    simp only [beq_iff_eq] at hp
    obtain ⟨a, b⟩ := kv
    simp only at hp
    subst hp
    exact ⟨b, hm⟩
  · rintro ⟨v, hv⟩
    exact ⟨(k, v), hv, by simp⟩

theorem formatOutput_eq_of_present {out : JsObj}
    (hs : (lookupField out "status").isSome = true)
    (hm : (lookupField out "message").isSome = true) :
    formatOutput out = fmtKnown out ++
      out.filter (fun kv => ((fmtKnown out).find? (fun kw => kw.1 == kv.1)).isNone) := by
  obtain ⟨sv, hsv⟩ := Option.isSome_iff_exists.mp hs
  obtain ⟨mv, hmv⟩ := Option.isSome_iff_exists.mp hm
  unfold formatOutput
  rw [if_pos]
  simp only [outputRequired, List.all_cons, List.all_nil, Bool.and_true, Bool.and_eq_true]
  constructor
  · exact (find?_key_isSome_iff ..).mpr ⟨sv, mem_fmtKnown.mpr ⟨by decide, hsv⟩⟩
  · exact (find?_key_isSome_iff ..).mpr ⟨mv, mem_fmtKnown.mpr ⟨by decide, hmv⟩⟩

theorem formatOutput_eq_500 {out : JsObj}
    (h : lookupField out "status" = none ∨ lookupField out "message" = none) :
    formatOutput out =
      [("status", .num 500),
       ("message", .str "Internal error: missing required output property")] := by
  unfold formatOutput
  rw [if_neg]
  intro hall
  simp only [outputRequired, List.all_cons, List.all_nil, Bool.and_true,
    Bool.and_eq_true] at hall
  rcases h with h | h
  · obtain ⟨v, hv⟩ := (find?_key_isSome_iff ..).mp hall.1
    have h2 := (mem_fmtKnown.mp hv).2
    rw [h] at h2
    exact Option.noConfusion h2
  · obtain ⟨v, hv⟩ := (find?_key_isSome_iff ..).mp hall.2
    have h2 := (mem_fmtKnown.mp hv).2
    rw [h] at h2
    exact Option.noConfusion h2

theorem lookupField_mkOut (s : Rat) (m : String) (rest : JsObj) :
    lookupField (mkOut s m rest) "status" = some (.num s) ∧
    lookupField (mkOut s m rest) "message" = some (.str m) := by
  have hs : lookupField (("status", JsVal.num s) :: ("message", JsVal.str m) :: rest)
      "status" = some (.num s) := lookupField_cons_self ..
  have hm : lookupField (("status", JsVal.num s) :: ("message", JsVal.str m) :: rest)
      "message" = some (.str m) := by
    rw [lookupField_cons_ne _ _ _ _ (by decide)]
    exact lookupField_cons_self ..
  have hfs : (fmtKnown (("status", JsVal.num s) :: ("message", JsVal.str m) :: rest)).find?
      (fun kv => kv.1 == "status") = some ("status", JsVal.num s) := by
    unfold fmtKnown
    simp only [outputKeys, List.filterMap_cons, hs, hm, Option.map_some']
    exact List.find?_cons_of_pos _ rfl
  have hfm : (fmtKnown (("status", JsVal.num s) :: ("message", JsVal.str m) :: rest)).find?
      (fun kv => kv.1 == "message") = some ("message", JsVal.str m) := by
    unfold fmtKnown
    simp only [outputKeys, List.filterMap_cons, hs, hm, Option.map_some']
    rw [@List.find?_cons_of_neg _ (fun kv => kv.1 == "message")
      ("status", JsVal.num s) _ (by simp)]
    exact List.find?_cons_of_pos _ rfl
  unfold mkOut
  rw [formatOutput_eq_of_present (by simp [hs]) (by simp [hm])]
  constructor
  · unfold lookupField
    rw [List.find?_append, hfs]
    rfl
  · unfold lookupField
    rw [List.find?_append, hfm]
    rfl

theorem mkOut_wf (s : Rat) (m : String) (rest : JsObj) :
    isWellFormedOut (mkOut s m rest) :=
  ⟨⟨s, (lookupField_mkOut s m rest).1⟩, ⟨m, (lookupField_mkOut s m rest).2⟩⟩

/-! ## Claim theorems -/

/-- C9: the modality-to-MIME mapping.  A PDF input always maps to
`application/pdf`; an image input maps by lower-cased extension to
`image/png`, `image/jpeg` (`.jpeg`/`.jpg`) or `image/webp`, defaulting to
`image/jpeg`; an audio input maps to `audio/wav`, `audio/mp3` or
`audio/ogg`, defaulting to `audio/mp3`. -/
theorem guessMimeType_policy :
    (∀ url : String, guessMimeType url "pdf" = "application/pdf") ∧
    (∀ url : String, strEndsWith (strLower url) ".png" = true →
      guessMimeType url "image" = "image/png") ∧
    (∀ url : String, strEndsWith (strLower url) ".png" = false →
      (strEndsWith (strLower url) ".jpeg" || strEndsWith (strLower url) ".jpg") = true →
      guessMimeType url "image" = "image/jpeg") ∧
    (∀ url : String, strEndsWith (strLower url) ".png" = false →
      (strEndsWith (strLower url) ".jpeg" || strEndsWith (strLower url) ".jpg") = false →
      strEndsWith (strLower url) ".webp" = true →
      guessMimeType url "image" = "image/webp") ∧
    (∀ url : String, strEndsWith (strLower url) ".png" = false →
      (strEndsWith (strLower url) ".jpeg" || strEndsWith (strLower url) ".jpg") = false →
      strEndsWith (strLower url) ".webp" = false →
      guessMimeType url "image" = "image/jpeg") ∧
    (∀ url : String, strEndsWith (strLower url) ".wav" = true →
      guessMimeType url "audio" = "audio/wav") ∧
    (∀ url : String, strEndsWith (strLower url) ".wav" = false →
      strEndsWith (strLower url) ".mp3" = true →
      guessMimeType url "audio" = "audio/mp3") ∧
    (∀ url : String, strEndsWith (strLower url) ".wav" = false →
      strEndsWith (strLower url) ".mp3" = false →
      strEndsWith (strLower url) ".ogg" = true →
      guessMimeType url "audio" = "audio/ogg") ∧
    (∀ url : String, strEndsWith (strLower url) ".wav" = false →
      strEndsWith (strLower url) ".mp3" = false →
      strEndsWith (strLower url) ".ogg" = false →
      guessMimeType url "audio" = "audio/mp3") := by
  refine ⟨?_, ?_, ?_, ?_, ?_, ?_, ?_, ?_, ?_⟩ <;>
    · intro url
      intros
      simp_all [guessMimeType]

/-- C9 witness: the mapping evaluated at concrete URLs of each kind. -/
theorem guessMimeType_policy_witness :
    guessMimeType "https://x/a" "pdf" = "application/pdf" ∧
    guessMimeType "https://x/a.PNG" "image" = "image/png" ∧
    guessMimeType "https://x/a.JpG" "image" = "image/jpeg" ∧
    guessMimeType "https://x/a.webp" "image" = "image/webp" ∧
    guessMimeType "https://x/a.gif" "image" = "image/jpeg" ∧
    guessMimeType "https://x/a.wav" "audio" = "audio/wav" ∧
    guessMimeType "https://x/a.MP3" "audio" = "audio/mp3" ∧
    guessMimeType "https://x/a.ogg" "audio" = "audio/ogg" ∧
    guessMimeType "https://x/a.flac" "audio" = "audio/mp3" :=
  ⟨guessMimeType_policy.1 _,
    guessMimeType_policy.2.1 _ (by decide),
    guessMimeType_policy.2.2.1 _ (by decide) (by decide),
    guessMimeType_policy.2.2.2.1 _ (by decide) (by decide) (by decide),
    guessMimeType_policy.2.2.2.2.1 _ (by decide) (by decide) (by decide),
    guessMimeType_policy.2.2.2.2.2.1 _ (by decide),
    guessMimeType_policy.2.2.2.2.2.2.1 _ (by decide) (by decide),
    guessMimeType_policy.2.2.2.2.2.2.2.1 _ (by decide) (by decide) (by decide),
    guessMimeType_policy.2.2.2.2.2.2.2.2 _ (by decide) (by decide) (by decide)⟩

/-- C5: for a URL matching the stored-download pattern, `fetchFile` performs
exactly one token exchange against that domain followed by exactly one
authenticated download, returning the downloaded bytes; for any other URL it
performs zero token exchanges and exactly one plain GET, returning its
bytes. -/
theorem fetchFile_calls :
    (∀ (url fileType domain downloadId : String) (creds : GcCreds) (env : Env)
        (tok : String) (bytes : Nat),
      genesysMatch url = some (domain, downloadId) →
      strTruthy creds.gcClientId = true →
      strTruthy creds.gcClientSecret = true →
      env.tokenResult domain = .ok (some tok) →
      tok ≠ "" →
      env.authDownload domain downloadId = .ok bytes →
      fetchFile url fileType creds env =
        ([.tokenExchange domain, .authGet domain downloadId], .ok bytes)) ∧
    (∀ (url fileType : String) (creds : GcCreds) (env : Env) (bytes : Nat),
      genesysMatch url = none →
      env.plainDownload url = .ok bytes →
      fetchFile url fileType creds env = ([.plainGet url], .ok bytes)) := by
  constructor
  · intro url fileType domain downloadId creds env tok bytes hmatch hid hsec htok htok2 hdl
    have ht3 : strTruthy (some tok) = true := by simp [strTruthy, htok2]
    unfold fetchFile
    rw [hmatch]
    simp [hid, hsec, htok, ht3, hdl]
  · intro url fileType creds env bytes hmatch hdl
    unfold fetchFile
    rw [hmatch, hdl]

/-- Provider response used by the witnesses. -/
def witData : JsVal :=
  .obj
    [("candidates", .arr
        [.obj [("content", .obj [("parts", .arr [.obj [("text", .str " hello ")]])]),
               ("finishReason", .str "STOP")]]),
     ("usageMetadata", .obj [("totalTokenCount", .num 42)])]

/-- Environment used by the witnesses: all remote calls succeed. -/
def witEnv : Env where
  tokenResult := fun _ => .ok (some "tok")
  authDownload := fun _ _ => .ok 7
  plainDownload := fun _ => .ok 9
  uploadStart := fun _ _ _ => .ok (some "sess", .obj [])
  uploadFinalize := fun _ _ =>
    .ok (.obj [("file", .obj [("uri", .str "files/abc123")])])
  generate := fun _ _ => .ok witData

/-- Context used by the witnesses: credentials present in `clientContext`. -/
def witCtx : Ctx := ⟨none, none, some "cid", some "csec", some "gkey"⟩

/-- C5 witness: both halves at concrete URLs and a concrete environment. -/
theorem fetchFile_calls_witness :
    fetchFile "https://api-downloads.mypurecloud.de/api/v2/downloads/dl42" "pdf"
        ⟨some "cid", some "csec"⟩ witEnv =
      ([.tokenExchange "mypurecloud.de", .authGet "mypurecloud.de" "dl42"], .ok 7) ∧
    fetchFile "https://example.com/a.pdf" "pdf" ⟨some "cid", some "csec"⟩ witEnv =
      ([.plainGet "https://example.com/a.pdf"], .ok 9) :=
  ⟨fetchFile_calls.1 "https://api-downloads.mypurecloud.de/api/v2/downloads/dl42"
      "pdf" "mypurecloud.de" "dl42" ⟨some "cid", some "csec"⟩ witEnv "tok" 7
      (by decide) (by decide) (by decide) rfl (by decide) rfl,
   fetchFile_calls.2 "https://example.com/a.pdf" "pdf" ⟨some "cid", some "csec"⟩ witEnv 9
     (by decide) rfl⟩

theorem processModality_ok_modality (o : JsObj) (creds : GcCreds) (env : Env)
    (urlKey fileType displayName downloadMsg uploadMsg : String) (t : List NetCall)
    (r : Option Upload)
    (h : processModality o creds env urlKey fileType displayName downloadMsg uploadMsg
      = (t, .ok r)) :
    ∀ u, r = some u → u.modality = fileType := by
  intro u hr
  subst hr
  unfold processModality at h
  split at h
  · exact absurd h (by simp)
  · split at h
    · exact absurd h (by simp)
    · split at h
      · split at h
        · exact absurd h (by simp)
        · split at h
          · exact absurd h (by simp)
          · have h2 := congrArg Prod.snd h
            simp only [Except.ok.injEq, Option.some.injEq] at h2
            rw [← h2]
      · exact absurd h (by simp)

theorem collectUploads_ok_shape (o : JsObj) (creds : GcCreds) (env : Env)
    (t : List NetCall) (us : List Upload)
    (h : collectUploads o creds env = (t, .ok us)) :
    ∃ up ui ua : Option Upload,
      us = up.toList ++ ui.toList ++ ua.toList ∧
      (∀ u, up = some u → u.modality = "pdf") ∧
      (∀ u, ui = some u → u.modality = "image") ∧
      (∀ u, ua = some u → u.modality = "audio") := by
  unfold collectUploads at h
  split at h
  · exact absurd h (by simp)
  next t1 u1 heq1 =>
    split at h
    · exact absurd h (by simp)
    next t2 u2 heq2 =>
      split at h
      · exact absurd h (by simp)
      next t3 u3 heq3 =>
        have h2 := congrArg Prod.snd h
        simp only [Except.ok.injEq] at h2
        refine ⟨u1, u2, u3, h2.symm, ?_, ?_, ?_⟩
        · exact processModality_ok_modality _ _ _ _ _ _ _ _ _ _ heq1
        · exact processModality_ok_modality _ _ _ _ _ _ _ _ _ _ heq2
        · exact processModality_ok_modality _ _ _ _ _ _ _ _ _ _ heq3

/-- C1: the content-parts assembly policy.  No files: one text part with the
prompt.  A single document (PDF) file: the text part first (only when the
prompt is non-empty) followed by the file part.  Every other case (a single
non-document file, or two or more files): all file parts first, then the
text part (only when the prompt is non-empty); and the handler's upload
list is always in source order — the PDF entry, then the image entry, then
the audio entry. -/
theorem buildParts_policy :
    (∀ p : String, buildParts [] p = [.text p]) ∧
    (∀ (u : Upload) (p : String), u.modality = "pdf" →
      buildParts [u] p =
        if p ≠ "" then [.text p, filePartOf u] else [filePartOf u]) ∧
    (∀ (u : Upload) (p : String), u.modality ≠ "pdf" →
      buildParts [u] p = [filePartOf u] ++ (if p ≠ "" then [.text p] else [])) ∧
    (∀ (a b : Upload) (rest : List Upload) (p : String),
      buildParts (a :: b :: rest) p =
        (a :: b :: rest).map filePartOf ++ (if p ≠ "" then [.text p] else [])) ∧
    (∀ (o : JsObj) (creds : GcCreds) (env : Env) (t : List NetCall) (us : List Upload),
      collectUploads o creds env = (t, .ok us) →
      ∃ up ui ua : Option Upload,
        us = up.toList ++ ui.toList ++ ua.toList ∧
        (∀ u, up = some u → u.modality = "pdf") ∧
        (∀ u, ui = some u → u.modality = "image") ∧
        (∀ u, ua = some u → u.modality = "audio")) := by
  refine ⟨fun p => rfl, ?_, ?_, fun a b rest p => rfl, collectUploads_ok_shape⟩
  · intro u p h
    by_cases hp : p = "" <;> simp [buildParts, h, hp]
  · intro u p h
    by_cases hp : p = "" <;> simp [buildParts, h, hp]

/-- C1 witness: the policy at concrete upload lists, and the handler's
upload order on a concrete two-file run. -/
theorem buildParts_policy_witness :
    buildParts [] "hi" = [.text "hi"] ∧
    buildParts [⟨"pdf", .str "u1", "application/pdf"⟩] "hi" =
      [.text "hi", .fileData "application/pdf" (.str "u1")] ∧
    buildParts [⟨"pdf", .str "u1", "application/pdf"⟩] "" =
      [.fileData "application/pdf" (.str "u1")] ∧
    buildParts [⟨"image", .str "u2", "image/png"⟩] "hi" =
      [.fileData "image/png" (.str "u2"), .text "hi"] ∧
    buildParts [⟨"image", .str "u2", "image/png"⟩, ⟨"audio", .str "u3", "audio/mp3"⟩] "hi" =
      [.fileData "image/png" (.str "u2"), .fileData "audio/mp3" (.str "u3"), .text "hi"] ∧
    (∃ up ui ua : Option Upload,
      [Upload.mk "image" (.str "files/abc123") "image/png",
       Upload.mk "audio" (.str "files/abc123") "audio/mp3"] =
        up.toList ++ ui.toList ++ ua.toList ∧
      (∀ u, up = some u → u.modality = "pdf") ∧
      (∀ u, ui = some u → u.modality = "image") ∧
      (∀ u, ua = some u → u.modality = "audio")) := by
  refine ⟨buildParts_policy.1 "hi", ?_, ?_, ?_, ?_, ?_⟩
  · exact (buildParts_policy.2.1 ⟨"pdf", .str "u1", "application/pdf"⟩ "hi" rfl).trans (by decide)
  · exact (buildParts_policy.2.1 ⟨"pdf", .str "u1", "application/pdf"⟩ "" rfl).trans (by decide)
  · exact (buildParts_policy.2.2.1 ⟨"image", .str "u2", "image/png"⟩ "hi" (by decide)).trans
      (by decide)
  · exact (buildParts_policy.2.2.2.1 ⟨"image", .str "u2", "image/png"⟩
      ⟨"audio", .str "u3", "audio/mp3"⟩ [] "hi").trans (by decide)
  · have h := buildParts_policy.2.2.2.2
      [("user_message", .str "q"), ("imageDownloadUrl", .str "http://x/a.png"),
        ("audioDownloadUrl", .str "http://x/b.mp3")]
      ⟨some "cid", some "csec"⟩ witEnv
      [.plainGet "http://x/a.png", .uploadStart "image/png" "GenesysImage",
        .uploadFinalize "sess", .plainGet "http://x/b.mp3",
        .uploadStart "audio/mp3" "GenesysAudio", .uploadFinalize "sess"]
      [⟨"image", .str "files/abc123", "image/png"⟩, ⟨"audio", .str "files/abc123", "audio/mp3"⟩]
      rfl
    exact h

/-- C6: a payload missing the (only) required field `user_message` is
rejected with status 400 and a message naming the field, with an empty
network trace (no credential use, no remote call). -/
theorem missingRequired_rejected :
    ∀ (o : JsObj) (ctx : Ctx) (env : Env),
      lookupField o "user_message" = none →
      runWithPayload (.obj o) ctx env =
        ([], mkOut 400 "Invalid input: Missing required property: user_message" []) ∧
      List.IsInfix "user_message".data
        "Invalid input: Missing required property: user_message".data := by
  intro o ctx env h
  have hv : validateFields o = some ("Missing required property: " ++ "user_message") := by
    unfold validateFields
    simp [inputRequired, List.find?, h]
  refine ⟨?_, by decide⟩
  unfold runWithPayload validateInput
  simp only [hv]
  decide

/-- C6 witness: a concrete payload without `user_message`. -/
theorem missingRequired_rejected_witness :
    runWithPayload (.obj [("temperature", .num 1)]) witCtx witEnv =
      ([], mkOut 400 "Invalid input: Missing required property: user_message" []) ∧
    List.IsInfix "user_message".data
      "Invalid input: Missing required property: user_message".data :=
  missingRequired_rejected [("temperature", .num 1)] witCtx witEnv rfl

theorem generateBodies_append (t1 t2 : List NetCall) :
    generateBodies (t1 ++ t2) = generateBodies t1 ++ generateBodies t2 := by
  simp [generateBodies]

theorem fetchFile_no_generate (url fileType : String) (creds : GcCreds) (env : Env) :
    generateBodies (fetchFile url fileType creds env).1 = [] := by
  unfold fetchFile
  repeat' split
  all_goals simp [generateBodies]

theorem uploadFile_no_generate (bytes : Nat) (mimeType displayName : String) (env : Env) :
    generateBodies (uploadFile bytes mimeType displayName env).1 = [] := by
  unfold uploadFile
  repeat' split
  all_goals simp [generateBodies]

theorem processModality_no_generate (o : JsObj) (creds : GcCreds) (env : Env)
    (urlKey fileType displayName downloadMsg uploadMsg : String) :
    generateBodies
      (processModality o creds env urlKey fileType displayName downloadMsg uploadMsg).1
      = [] := by
  cases hl : lookupField o urlKey with
  | none => simp [processModality, hl, generateBodies]
  | some urlVal =>
    by_cases ht : isTruthy urlVal = true
    · cases urlVal with
      | null => simp [processModality, hl, ht, generateBodies]
      | bool b => simp [processModality, hl, ht, generateBodies]
      | num q => simp [processModality, hl, ht, generateBodies]
      | arr l => simp [processModality, hl, ht, generateBodies]
      | obj fs => simp [processModality, hl, ht, generateBodies]
      | str url =>
        cases hf : fetchFile url fileType creds env with
        | mk tf rf =>
          have hfg : generateBodies tf = [] := by
            have h0 := fetchFile_no_generate url fileType creds env
            rw [hf] at h0
            exact h0
          cases rf with
          | error m => simp [processModality, hl, ht, hf, hfg]
          | ok bytes =>
            cases hu : uploadFile bytes (guessMimeType url fileType) displayName env with
            | mk tu ru =>
              have hug : generateBodies tu = [] := by
                have h0 := uploadFile_no_generate bytes (guessMimeType url fileType)
                  displayName env
                rw [hu] at h0
                exact h0
              cases ru <;>
                simp [processModality, hl, ht, hf, hu, generateBodies_append, hfg, hug]
    · simp [processModality, hl, ht, generateBodies]

theorem collectUploads_no_generate (o : JsObj) (creds : GcCreds) (env : Env) :
    generateBodies (collectUploads o creds env).1 = [] := by
  have h1 := processModality_no_generate o creds env "pdfDownloadUrl" "pdf" "GenesysPDF"
    "Failed to download PDF" "Failed to upload PDF"
  have h2 := processModality_no_generate o creds env "imageDownloadUrl" "image" "GenesysImage"
    "Failed to download image" "Failed to upload image"
  have h3 := processModality_no_generate o creds env "audioDownloadUrl" "audio" "GenesysAudio"
    "Failed to download audio" "Failed to upload audio"
  unfold collectUploads
  split
  next t1 r heq =>
    rw [heq] at h1
    simpa using h1
  next t1 u1 heq =>
    rw [heq] at h1
    simp only at h1
    split
    next t2 r heq2 =>
      rw [heq2] at h2
      simp only at h2
      simp [generateBodies_append, h1, h2]
    next t2 u2 heq2 =>
      rw [heq2] at h2
      simp only at h2
      split
      next t3 r heq3 =>
        rw [heq3] at h3
        simp only at h3
        simp [generateBodies_append, h1, h2, h3]
      next t3 u3 heq3 =>
        rw [heq3] at h3
        simp only at h3
        simp [generateBodies_append, h1, h2, h3]

/-- Any generateContent request body occurring in a `runValidated` trace has
the temperature and max-tokens from the payload (with defaults 0.3 and
1024), and carries no response-schema directive unless both
`isJsonResponse` and `responseSchema` are truthy. -/
theorem runValidated_gen_mem (o : JsObj) (ctx : Ctx) (env : Env) (b : RequestBody)
    (hb : b ∈ generateBodies (runValidated o ctx env).1) :
    b.generationConfig.temperature =
      (match lookupField o "temperature" with
        | some v => v
        | none => .num (mkRat 3 10)) ∧
    b.generationConfig.maxOutputTokens =
      (match lookupField o "max_tokens" with
        | some v => v
        | none => .num 1024) ∧
    (¬ (jsTruthyOpt (lookupField o "isJsonResponse") = true ∧
        jsTruthyOpt (lookupField o "responseSchema") = true) →
      b.generationConfig.responseMimeType = none ∧
      b.generationConfig.responseSchema = none) := by
  by_cases hk : strTruthy ctx.ccGoogleApiKey = true
  · cases hcu : collectUploads o
        ⟨pickCred ctx.hdrGcClientId ctx.ccGcClientId,
          pickCred ctx.hdrGcClientSecret ctx.ccGcClientSecret⟩ env with
    | mk t r =>
      have htg : generateBodies t = [] := by
        have h0 := collectUploads_no_generate o
          ⟨pickCred ctx.hdrGcClientId ctx.ccGcClientId,
            pickCred ctx.hdrGcClientSecret ctx.ccGcClientSecret⟩ env
        rw [hcu] at h0
        exact h0
      have htgF := htg
      simp only [generateBodies] at htgF
      simp only [runValidated] at hb
      rw [if_neg (by simp [hk]), hcu] at hb
      cases r with
      | error resp =>
        dsimp only at hb
        rw [htg] at hb
        exact absurd hb (by simp)
      | ok us =>
        dsimp only at hb
        by_cases hj : (jsTruthyOpt (lookupField o "isJsonResponse") = true ∧
            jsTruthyOpt (lookupField o "responseSchema") = true)
        · rw [if_pos hj] at hb
          cases hs : lookupField o "responseSchema" with
          | none => exact absurd hj.2 (by simp [hs, jsTruthyOpt])
          | some sv =>
            rw [hs] at hb
            cases sv with
            | str schemaStr =>
              dsimp only at hb
              cases hp : jsonParseE schemaStr with
              | error m =>
                rw [hp] at hb
                dsimp only at hb
                rw [htg] at hb
                exact absurd hb (by simp)
              | ok parsed =>
                rw [hp] at hb
                dsimp only at hb
                simp only [generateBodies, List.filterMap_append, htgF,
                  List.filterMap_cons, List.filterMap_nil, List.nil_append,
                  List.mem_singleton] at hb
                subst hb
                exact ⟨rfl, rfl, fun hcontra => absurd (by rwa [hs] at hj) hcontra⟩
            | null =>
              dsimp only at hb
              rw [htg] at hb
              exact absurd hb (by simp)
            | bool v =>
              dsimp only at hb
              rw [htg] at hb
              exact absurd hb (by simp)
            | num v =>
              dsimp only at hb
              rw [htg] at hb
              exact absurd hb (by simp)
            | arr v =>
              dsimp only at hb
              rw [htg] at hb
              exact absurd hb (by simp)
            | obj v =>
              dsimp only at hb
              rw [htg] at hb
              exact absurd hb (by simp)
        · rw [if_neg hj] at hb
          dsimp only at hb
          simp only [generateBodies, List.filterMap_append, htgF,
            List.filterMap_cons, List.filterMap_nil, List.nil_append,
            List.mem_singleton] at hb
          subst hb
          exact ⟨rfl, rfl, fun _ => ⟨rfl, rfl⟩⟩
  · simp only [runValidated] at hb
    rw [if_pos (by simp [hk])] at hb
    simp [generateBodies] at hb

/-- Validation either stops the run with an empty trace or hands over to
`runValidated`. -/
theorem runWithPayload_obj (o : JsObj) (ctx : Ctx) (env : Env) :
    (∃ out, runWithPayload (.obj o) ctx env = ([], out)) ∨
    runWithPayload (.obj o) ctx env = runValidated o ctx env := by
  unfold runWithPayload validateInput
  cases hv : validateFields o with
  | none => right; simp [hv]
  | some e => exact Or.inl ⟨mkOut 400 ("Invalid input: " ++ e) [], by simp [hv]⟩

/-- C4 (amended): a valid payload omitting `temperature` generates with
temperature 0.3, and one omitting `max_tokens` generates with
maxOutputTokens 1024 (the source defaults; the platform-contract defaults
0.2/4096 from the README apply upstream of this handler). -/
theorem generation_defaults :
    ∀ (o : JsObj) (ctx : Ctx) (env : Env),
      (lookupField o "temperature" = none →
        ∀ b ∈ generateBodies (runWithPayload (.obj o) ctx env).1,
          b.generationConfig.temperature = .num (mkRat 3 10)) ∧
      (lookupField o "max_tokens" = none →
        ∀ b ∈ generateBodies (runWithPayload (.obj o) ctx env).1,
          b.generationConfig.maxOutputTokens = .num 1024) := by
  intro o ctx env
  constructor
  · intro h b hb
    rcases runWithPayload_obj o ctx env with ⟨out, he⟩ | he
    · rw [he] at hb
      simp [generateBodies] at hb
    · rw [he] at hb
      have hg := (runValidated_gen_mem o ctx env b hb).1
      rw [hg, h]
  · intro h b hb
    rcases runWithPayload_obj o ctx env with ⟨out, he⟩ | he
    · rw [he] at hb
      simp [generateBodies] at hb
    · rw [he] at hb
      have hg := (runValidated_gen_mem o ctx env b hb).2.1
      rw [hg, h]

/-- C2 counterexample: with an invalid `responseSchema` and a PDF URL, the
400 response is produced only after the download and upload calls have
already been made; and with `isJsonResponse` true but `responseSchema`
absent, no 400 is returned at all — the run succeeds with a generation
call.  Both refute "returns 400 before any network call". -/
theorem responseSchema_check_counterexample :
    (runWithPayload (.obj
        [("user_message", .str "hi"), ("isJsonResponse", .bool true),
         ("pdfDownloadUrl", .str "http://x/a.pdf"), ("responseSchema", .str "not json")])
        witCtx witEnv).1 =
      [.plainGet "http://x/a.pdf", .uploadStart "application/pdf" "GenesysPDF",
       .uploadFinalize "sess"] ∧
    [NetCall.plainGet "http://x/a.pdf", .uploadStart "application/pdf" "GenesysPDF",
       .uploadFinalize "sess"] ≠ [] ∧
    lookupField (runWithPayload (.obj
        [("user_message", .str "hi"), ("isJsonResponse", .bool true),
         ("pdfDownloadUrl", .str "http://x/a.pdf"), ("responseSchema", .str "not json")])
        witCtx witEnv).2 "status" = some (.num 400) ∧
    lookupField (runWithPayload (.obj
        [("user_message", .str "hi"), ("isJsonResponse", .bool true)])
        witCtx witEnv).2 "status" = some (.num 200) ∧
    (runWithPayload (.obj [("user_message", .str "hi"), ("isJsonResponse", .bool true)])
        witCtx witEnv).1 ≠ [] := by
  refine ⟨by decide, by decide, by decide, by decide, by decide⟩

/-- C2 (amended): with `isJsonResponse` truthy and a present, non-empty
`responseSchema` string that fails to parse, the (validated) run returns
status 400 with message "Invalid responseSchema JSON" and never issues the
generation call — but the trace `t` of file downloads/uploads has already
happened; with `responseSchema` absent, no error occurs and any generation
call carries no response-schema directive. -/
theorem responseSchema_check_amended :
    (∀ (o : JsObj) (ctx : Ctx) (env : Env) (t : List NetCall) (us : List Upload)
        (schemaStr m : String),
      validateFields o = none →
      strTruthy ctx.ccGoogleApiKey = true →
      collectUploads o
        ⟨pickCred ctx.hdrGcClientId ctx.ccGcClientId,
          pickCred ctx.hdrGcClientSecret ctx.ccGcClientSecret⟩ env = (t, .ok us) →
      jsTruthyOpt (lookupField o "isJsonResponse") = true →
      lookupField o "responseSchema" = some (.str schemaStr) →
      schemaStr ≠ "" →
      jsonParseE schemaStr = .error m →
      runWithPayload (.obj o) ctx env =
        (t, mkOut 400 "Invalid responseSchema JSON" [("detail", .str m)]) ∧
      generateBodies t = []) ∧
    (∀ (o : JsObj) (ctx : Ctx) (env : Env),
      lookupField o "responseSchema" = none →
      ∀ b ∈ generateBodies (runWithPayload (.obj o) ctx env).1,
        b.generationConfig.responseMimeType = none ∧
        b.generationConfig.responseSchema = none) := by
  constructor
  · intro o ctx env t us schemaStr m hv hk hcu hj hs hne hp
    have hjj : (jsTruthyOpt (lookupField o "isJsonResponse") = true ∧
        jsTruthyOpt (lookupField o "responseSchema") = true) := by
      refine ⟨hj, ?_⟩
      simp [hs, jsTruthyOpt, isTruthy, hne]
    constructor
    · unfold runWithPayload validateInput
      simp only [hv]
      unfold runValidated
      rw [if_neg (by simp [hk]), hcu]
      dsimp only
      rw [if_pos hjj, hs]
      dsimp only
      rw [hp]
    · have h0 := collectUploads_no_generate o
        ⟨pickCred ctx.hdrGcClientId ctx.ccGcClientId,
          pickCred ctx.hdrGcClientSecret ctx.ccGcClientSecret⟩ env
      rw [hcu] at h0
      exact h0
  · intro o ctx env hs b hb
    rcases runWithPayload_obj o ctx env with ⟨out, he⟩ | he
    · rw [he] at hb
      simp [generateBodies] at hb
    · rw [he] at hb
      refine (runValidated_gen_mem o ctx env b hb).2.2 ?_
      rintro ⟨-, h2⟩
      simp [hs, jsTruthyOpt] at h2

/-- C2 witness: both halves of the amended claim at concrete inputs. -/
theorem responseSchema_check_amended_witness :
    (runWithPayload (.obj
        [("user_message", .str "hi"), ("isJsonResponse", .bool true),
         ("responseSchema", .str "not json")]) witCtx witEnv =
      ([], mkOut 400 "Invalid responseSchema JSON"
        [("detail", .str "Unexpected token in JSON")]) ∧
      generateBodies ([] : List NetCall) = []) ∧
    ((generateBodies
        (runWithPayload (.obj [("user_message", .str "hi")]) witCtx witEnv).1).all
      (fun b => b.generationConfig.responseMimeType == none &&
        b.generationConfig.responseSchema == none)) = true := by
  constructor
  · exact responseSchema_check_amended.1
      [("user_message", .str "hi"), ("isJsonResponse", .bool true),
        ("responseSchema", .str "not json")]
      witCtx witEnv [] [] "not json" "Unexpected token in JSON"
      rfl rfl rfl rfl rfl (by decide) rfl
  · rw [List.all_eq_true]
    intro b hb
    have h := responseSchema_check_amended.2 [("user_message", .str "hi")] witCtx witEnv
      rfl b hb
    simp [h.1, h.2]

/-- C8: a failed upload-start (no session upload URL in the response) or a
finalize response without a file reference aborts the request with an
upload-failure response whose detail carries `JSON.stringify` of the
provider's raw response body, and no generateContent call is ever issued
(shown here for the PDF modality, the first one processed). -/
theorem upload_failure_aborts :
    (∀ (o : JsObj) (ctx : Ctx) (env : Env) (u : String) (tf : List NetCall)
        (bytes : Nat) (d : JsVal),
      validateFields o = none →
      strTruthy ctx.ccGoogleApiKey = true →
      lookupField o "pdfDownloadUrl" = some (.str u) →
      u ≠ "" →
      fetchFile u "pdf"
        ⟨pickCred ctx.hdrGcClientId ctx.ccGcClientId,
          pickCred ctx.hdrGcClientSecret ctx.ccGcClientSecret⟩ env = (tf, .ok bytes) →
      env.uploadStart (guessMimeType u "pdf") "GenesysPDF" bytes = .ok (none, d) →
      runWithPayload (.obj o) ctx env =
        (tf ++ [.uploadStart (guessMimeType u "pdf") "GenesysPDF"],
          mkOut 400 "Failed to upload PDF"
            [("detail", .str ("Failed to start resumable upload: " ++ jsonStringify d))]) ∧
      generateBodies (runWithPayload (.obj o) ctx env).1 = []) ∧
    (∀ (o : JsObj) (ctx : Ctx) (env : Env) (u su : String) (tf : List NetCall)
        (bytes : Nat) (d2 : JsVal),
      validateFields o = none →
      strTruthy ctx.ccGoogleApiKey = true →
      lookupField o "pdfDownloadUrl" = some (.str u) →
      u ≠ "" →
      fetchFile u "pdf"
        ⟨pickCred ctx.hdrGcClientId ctx.ccGcClientId,
          pickCred ctx.hdrGcClientSecret ctx.ccGcClientSecret⟩ env = (tf, .ok bytes) →
      (∃ d1, env.uploadStart (guessMimeType u "pdf") "GenesysPDF" bytes
        = .ok (some su, d1)) →
      su ≠ "" →
      env.uploadFinalize su bytes = .ok d2 →
      (jsGetField d2 "file").bind (fun f => jsGetField f "uri") = none →
      runWithPayload (.obj o) ctx env =
        (tf ++ [.uploadStart (guessMimeType u "pdf") "GenesysPDF", .uploadFinalize su],
          mkOut 400 "Failed to upload PDF"
            [("detail", .str ("Failed to finalize upload: " ++ jsonStringify d2))]) ∧
      generateBodies (runWithPayload (.obj o) ctx env).1 = []) := by
  constructor
  · intro o ctx env u tf bytes d hv hk hurl hne hf hstart
    have hup : uploadFile bytes (guessMimeType u "pdf") "GenesysPDF" env =
        ([.uploadStart (guessMimeType u "pdf") "GenesysPDF"],
          .error ⟨none, "Failed to start resumable upload: " ++ jsonStringify d⟩) := by
      unfold uploadFile
      rw [hstart]
    have hpm : processModality o
        ⟨pickCred ctx.hdrGcClientId ctx.ccGcClientId,
          pickCred ctx.hdrGcClientSecret ctx.ccGcClientSecret⟩ env
        "pdfDownloadUrl" "pdf" "GenesysPDF" "Failed to download PDF" "Failed to upload PDF" =
        (tf ++ [.uploadStart (guessMimeType u "pdf") "GenesysPDF"],
          .error (mkOut 400 "Failed to upload PDF"
            [("detail", .str ("Failed to start resumable upload: " ++ jsonStringify d))])) := by
      unfold processModality
      rw [hurl]
      try dsimp only
      rw [if_neg (by simp [isTruthy, hne])]
      try dsimp only
      rw [hf]
      try dsimp only
      rw [hup]
      try dsimp only
      rfl
    have hcu : collectUploads o
        ⟨pickCred ctx.hdrGcClientId ctx.ccGcClientId,
          pickCred ctx.hdrGcClientSecret ctx.ccGcClientSecret⟩ env =
        (tf ++ [.uploadStart (guessMimeType u "pdf") "GenesysPDF"],
          .error (mkOut 400 "Failed to upload PDF"
            [("detail", .str ("Failed to start resumable upload: " ++ jsonStringify d))])) := by
      unfold collectUploads
      rw [hpm]
    have hrun : runWithPayload (.obj o) ctx env =
        (tf ++ [.uploadStart (guessMimeType u "pdf") "GenesysPDF"],
          mkOut 400 "Failed to upload PDF"
            [("detail", .str ("Failed to start resumable upload: " ++ jsonStringify d))]) := by
      unfold runWithPayload validateInput
      simp only [hv]
      unfold runValidated
      rw [if_neg (by simp [hk]), hcu]
    refine ⟨hrun, ?_⟩
    rw [hrun]
    have hfg := fetchFile_no_generate u "pdf"
      ⟨pickCred ctx.hdrGcClientId ctx.ccGcClientId,
        pickCred ctx.hdrGcClientSecret ctx.ccGcClientSecret⟩ env
    rw [hf] at hfg
    simp only [generateBodies] at hfg
    simp only [generateBodies, List.filterMap_append, hfg, List.filterMap_cons,
      List.filterMap_nil, List.append_nil]
  · intro o ctx env u su tf bytes d2 hv hk hurl hne hf hstart hsu hfin huri
    obtain ⟨d1, hstart⟩ := hstart
    have hup : uploadFile bytes (guessMimeType u "pdf") "GenesysPDF" env =
        ([.uploadStart (guessMimeType u "pdf") "GenesysPDF", .uploadFinalize su],
          .error ⟨none, "Failed to finalize upload: " ++ jsonStringify d2⟩) := by
      unfold uploadFile
      rw [hstart]
      try dsimp only
      rw [if_neg hsu, hfin]
      try dsimp only
      rw [huri]
    have hpm : processModality o
        ⟨pickCred ctx.hdrGcClientId ctx.ccGcClientId,
          pickCred ctx.hdrGcClientSecret ctx.ccGcClientSecret⟩ env
        "pdfDownloadUrl" "pdf" "GenesysPDF" "Failed to download PDF" "Failed to upload PDF" =
        (tf ++ [.uploadStart (guessMimeType u "pdf") "GenesysPDF", .uploadFinalize su],
          .error (mkOut 400 "Failed to upload PDF"
            [("detail", .str ("Failed to finalize upload: " ++ jsonStringify d2))])) := by
      unfold processModality
      rw [hurl]
      try dsimp only
      rw [if_neg (by simp [isTruthy, hne])]
      try dsimp only
      rw [hf]
      try dsimp only
      rw [hup]
      try dsimp only
      rfl
    have hcu : collectUploads o
        ⟨pickCred ctx.hdrGcClientId ctx.ccGcClientId,
          pickCred ctx.hdrGcClientSecret ctx.ccGcClientSecret⟩ env =
        (tf ++ [.uploadStart (guessMimeType u "pdf") "GenesysPDF", .uploadFinalize su],
          .error (mkOut 400 "Failed to upload PDF"
            [("detail", .str ("Failed to finalize upload: " ++ jsonStringify d2))])) := by
      unfold collectUploads
      rw [hpm]
    have hrun : runWithPayload (.obj o) ctx env =
        (tf ++ [.uploadStart (guessMimeType u "pdf") "GenesysPDF", .uploadFinalize su],
          mkOut 400 "Failed to upload PDF"
            [("detail", .str ("Failed to finalize upload: " ++ jsonStringify d2))]) := by
      unfold runWithPayload validateInput
      simp only [hv]
      unfold runValidated
      rw [if_neg (by simp [hk]), hcu]
    refine ⟨hrun, ?_⟩
    rw [hrun]
    have hfg := fetchFile_no_generate u "pdf"
      ⟨pickCred ctx.hdrGcClientId ctx.ccGcClientId,
        pickCred ctx.hdrGcClientSecret ctx.ccGcClientSecret⟩ env
    rw [hf] at hfg
    simp only [generateBodies] at hfg
    simp only [generateBodies, List.filterMap_append, hfg, List.filterMap_cons,
      List.filterMap_nil, List.append_nil]

/-- Environment for the C8 witness: the upload-start call returns no
session URL (first half) — and a second environment whose finalize response
has no file uri (second half). -/
def witEnvNoSession : Env :=
  { witEnv with uploadStart := fun _ _ _ => .ok (none, .obj [("error", .str "boom")]) }

def witEnvNoUri : Env :=
  { witEnv with uploadFinalize := fun _ _ => .ok (.obj [("ok", .bool true)]) }

/-- C8 witness: both halves at a concrete payload and environments. -/
theorem upload_failure_aborts_witness :
    (runWithPayload (.obj [("user_message", .str "q"), ("pdfDownloadUrl", .str "http://x/a.pdf")])
        witCtx witEnvNoSession =
      ([.plainGet "http://x/a.pdf", .uploadStart "application/pdf" "GenesysPDF"],
        mkOut 400 "Failed to upload PDF"
          [("detail", .str ("Failed to start resumable upload: "
            ++ jsonStringify (.obj [("error", .str "boom")])))]) ∧
      generateBodies (runWithPayload
        (.obj [("user_message", .str "q"), ("pdfDownloadUrl", .str "http://x/a.pdf")])
        witCtx witEnvNoSession).1 = []) ∧
    (runWithPayload (.obj [("user_message", .str "q"), ("pdfDownloadUrl", .str "http://x/a.pdf")])
        witCtx witEnvNoUri =
      ([.plainGet "http://x/a.pdf", .uploadStart "application/pdf" "GenesysPDF",
          .uploadFinalize "sess"],
        mkOut 400 "Failed to upload PDF"
          [("detail", .str ("Failed to finalize upload: "
            ++ jsonStringify (.obj [("ok", .bool true)])))]) ∧
      generateBodies (runWithPayload
        (.obj [("user_message", .str "q"), ("pdfDownloadUrl", .str "http://x/a.pdf")])
        witCtx witEnvNoUri).1 = []) := by
  constructor
  · exact upload_failure_aborts.1
      [("user_message", .str "q"), ("pdfDownloadUrl", .str "http://x/a.pdf")]
      witCtx witEnvNoSession "http://x/a.pdf" [.plainGet "http://x/a.pdf"] 9
      (.obj [("error", .str "boom")]) rfl rfl rfl (by decide) rfl rfl
  · exact upload_failure_aborts.2
      [("user_message", .str "q"), ("pdfDownloadUrl", .str "http://x/a.pdf")]
      witCtx witEnvNoUri "http://x/a.pdf" "sess" [.plainGet "http://x/a.pdf"] 9
      (.obj [("ok", .bool true)]) rfl rfl rfl (by decide) rfl ⟨.obj [], rfl⟩
      (by decide) rfl rfl

/-- C7: on a successful generation the output carries the raw response as
`geminiResponse`, the first candidate's first part's text as `textOutput`
(empty string when the path is absent), the first candidate's finish reason
unchanged (empty string when absent) and the usage metadata unchanged
(empty object when absent); when `isJsonResponse` is truthy, `textOutput`
is additionally trimmed of leading/trailing whitespace only, with the
interior untouched. -/
theorem output_extraction :
    (∀ (o : JsObj) (ctx : Ctx) (env : Env) (t : List NetCall) (us : List Upload)
        (data : JsVal),
      validateFields o = none →
      strTruthy ctx.ccGoogleApiKey = true →
      collectUploads o
        ⟨pickCred ctx.hdrGcClientId ctx.ccGcClientId,
          pickCred ctx.hdrGcClientSecret ctx.ccGcClientSecret⟩ env = (t, .ok us) →
      (∀ m b, env.generate m b = .ok data) →
      jsTruthyOpt (lookupField o "isJsonResponse") = false →
      ∃ mdl rb, runWithPayload (.obj o) ctx env =
        (t ++ [.generate mdl rb],
          mkOut 200 "success"
            [("geminiResponse", data), ("textOutput", extractTextRaw data),
             ("finishReason", extractFinishReason data), ("usage", extractUsage data)])) ∧
    (∀ (o : JsObj) (ctx : Ctx) (env : Env) (t : List NetCall) (us : List Upload)
        (data : JsVal) (s : String),
      validateFields o = none →
      strTruthy ctx.ccGoogleApiKey = true →
      collectUploads o
        ⟨pickCred ctx.hdrGcClientId ctx.ccGcClientId,
          pickCred ctx.hdrGcClientSecret ctx.ccGcClientSecret⟩ env = (t, .ok us) →
      (∀ m b, env.generate m b = .ok data) →
      jsTruthyOpt (lookupField o "isJsonResponse") = true →
      jsTruthyOpt (lookupField o "responseSchema") = false →
      extractTextRaw data = .str s →
      ∃ mdl rb, runWithPayload (.obj o) ctx env =
        (t ++ [.generate mdl rb],
          mkOut 200 "success"
            [("geminiResponse", data), ("textOutput", .str (strTrim s)),
             ("finishReason", extractFinishReason data), ("usage", extractUsage data)])) ∧
    (∀ (o : JsObj) (ctx : Ctx) (env : Env) (t : List NetCall) (us : List Upload)
        (data : JsVal) (schemaStr : String) (parsed : JsVal) (s : String),
      validateFields o = none →
      strTruthy ctx.ccGoogleApiKey = true →
      collectUploads o
        ⟨pickCred ctx.hdrGcClientId ctx.ccGcClientId,
          pickCred ctx.hdrGcClientSecret ctx.ccGcClientSecret⟩ env = (t, .ok us) →
      (∀ m b, env.generate m b = .ok data) →
      jsTruthyOpt (lookupField o "isJsonResponse") = true →
      lookupField o "responseSchema" = some (.str schemaStr) →
      schemaStr ≠ "" →
      jsonParseE schemaStr = .ok parsed →
      extractTextRaw data = .str s →
      ∃ mdl rb, runWithPayload (.obj o) ctx env =
        (t ++ [.generate mdl rb],
          mkOut 200 "success"
            [("geminiResponse", data), ("textOutput", .str (strTrim s)),
             ("finishReason", extractFinishReason data), ("usage", extractUsage data)])) ∧
    (∀ (data : JsVal) (s : String),
      textPath data = some (.str s) → extractTextRaw data = .str s) ∧
    (∀ data : JsVal, textPath data = none → extractTextRaw data = .str "") ∧
    (∀ (data : JsVal) (s : String),
      finishReasonPath data = some (.str s) → extractFinishReason data = .str s) ∧
    (∀ data : JsVal, finishReasonPath data = none → extractFinishReason data = .str "") ∧
    (∀ (data : JsVal) (fs : JsObj),
      jsGetField data "usageMetadata" = some (.obj fs) → extractUsage data = .obj fs) ∧
    (∀ data : JsVal, jsGetField data "usageMetadata" = none → extractUsage data = .obj []) ∧
    (∀ s : String,
      s.data =
        s.data.takeWhile isTrimWs ++ (strTrim s).data ++
          ((s.data.dropWhile isTrimWs).reverse.takeWhile isTrimWs).reverse ∧
      (∀ c ∈ s.data.takeWhile isTrimWs, isTrimWs c = true) ∧
      (∀ c ∈ (s.data.dropWhile isTrimWs).reverse.takeWhile isTrimWs, isTrimWs c = true)) := by
  refine ⟨?_, ?_, ?_, ?_, ?_, ?_, ?_, ?_, ?_, ?_⟩
  · intro o ctx env t us data hv hk hcu hgen hj
    unfold runWithPayload validateInput
    simp only [hv]
    unfold runValidated
    rw [if_neg (by simp [hk]), hcu]
    dsimp only
    rw [if_neg (show ¬ (jsTruthyOpt (lookupField o "isJsonResponse") = true ∧
      jsTruthyOpt (lookupField o "responseSchema") = true) from by simp [hj])]
    dsimp only
    rw [hgen]
    dsimp only
    rw [if_neg (show ¬ jsTruthyOpt (lookupField o "isJsonResponse") = true from by
      simp [hj])]
    dsimp only
    exact ⟨_, _, rfl⟩
  · intro o ctx env t us data s hv hk hcu hgen hj hsch hext
    unfold runWithPayload validateInput
    simp only [hv]
    unfold runValidated
    rw [if_neg (by simp [hk]), hcu]
    dsimp only
    rw [if_neg (show ¬ (jsTruthyOpt (lookupField o "isJsonResponse") = true ∧
      jsTruthyOpt (lookupField o "responseSchema") = true) from by simp [hsch])]
    dsimp only
    rw [hgen]
    dsimp only
    rw [if_pos hj, hext]
    dsimp only [trimStep]
    exact ⟨_, _, rfl⟩
  · intro o ctx env t us data schemaStr parsed s hv hk hcu hgen hj hs hne hp hext
    have hjj : (jsTruthyOpt (lookupField o "isJsonResponse") = true ∧
        jsTruthyOpt (lookupField o "responseSchema") = true) := by
      refine ⟨hj, ?_⟩
      simp [hs, jsTruthyOpt, isTruthy, hne]
    unfold runWithPayload validateInput
    simp only [hv]
    unfold runValidated
    rw [if_neg (by simp [hk]), hcu]
    dsimp only
    rw [if_pos hjj, hs]
    dsimp only
    rw [hp]
    dsimp only
    rw [hgen]
    dsimp only
    rw [if_pos hj, hext]
    dsimp only [trimStep]
    exact ⟨_, _, rfl⟩
  · intro data s h
    unfold extractTextRaw
    rw [h]
    by_cases hs : s = "" <;> simp [isTruthy, hs]
  · intro data h
    unfold extractTextRaw
    rw [h]
  · intro data s h
    unfold extractFinishReason
    rw [h]
    by_cases hs : s = "" <;> simp [isTruthy, hs]
  · intro data h
    unfold extractFinishReason
    rw [h]
  · intro data fs h
    unfold extractUsage
    rw [h]
    simp [isTruthy]
  · intro data h
    unfold extractUsage
    rw [h]
  · intro s
    refine ⟨?_, fun c hc => List.mem_takeWhile_imp hc,
      fun c hc => List.mem_takeWhile_imp hc⟩
    conv_lhs => rw [← List.takeWhile_append_dropWhile (p := isTrimWs) (l := s.data)]
    rw [List.append_assoc]
    congr 1
    have h2 : s.data.dropWhile isTrimWs
        = (((s.data.dropWhile isTrimWs).reverse.takeWhile isTrimWs) ++
            ((s.data.dropWhile isTrimWs).reverse.dropWhile isTrimWs)).reverse := by
      rw [List.takeWhile_append_dropWhile, List.reverse_reverse]
    conv_lhs => rw [h2]
    rw [List.reverse_append]
    rfl

/-- C7 witness: all three shaping cases (no JSON mode; JSON mode without a
schema; JSON mode with a supplied, parsing schema) and every extractor
clause at concrete inputs, including a non-ASCII-whitespace trim. -/
theorem output_extraction_witness :
    (∃ mdl rb, runWithPayload (.obj [("user_message", .str "hi")]) witCtx witEnv =
      (([] : List NetCall) ++ [.generate mdl rb],
        mkOut 200 "success"
          [("geminiResponse", witData), ("textOutput", extractTextRaw witData),
           ("finishReason", extractFinishReason witData), ("usage", extractUsage witData)])) ∧
    (∃ mdl rb, runWithPayload
        (.obj [("user_message", .str "hi"), ("isJsonResponse", .bool true)]) witCtx witEnv =
      (([] : List NetCall) ++ [.generate mdl rb],
        mkOut 200 "success"
          [("geminiResponse", witData), ("textOutput", .str (strTrim " hello ")),
           ("finishReason", extractFinishReason witData), ("usage", extractUsage witData)])) ∧
    (∃ mdl rb, runWithPayload
        (.obj [("user_message", .str "hi"), ("isJsonResponse", .bool true),
          ("responseSchema", .str "\x7b\"type\": \"OBJECT\"\x7d")]) witCtx witEnv =
      (([] : List NetCall) ++ [.generate mdl rb],
        mkOut 200 "success"
          [("geminiResponse", witData), ("textOutput", .str (strTrim " hello ")),
           ("finishReason", extractFinishReason witData), ("usage", extractUsage witData)])) ∧
    extractTextRaw witData = .str " hello " ∧
    extractFinishReason witData = .str "STOP" ∧
    extractUsage witData = .obj [("totalTokenCount", .num 42)] ∧
    extractTextRaw (.obj []) = .str "" ∧
    extractFinishReason (.obj []) = .str "" ∧
    extractUsage (.obj []) = .obj [] ∧
    strTrim " hello " = "hello" ∧
    strTrim "\u00a0 \u2009hi\u3000\ufeff" = "hi" :=
  ⟨output_extraction.1 [("user_message", .str "hi")] witCtx witEnv [] [] witData
      rfl rfl rfl (fun _ _ => rfl) rfl,
   output_extraction.2.1 [("user_message", .str "hi"), ("isJsonResponse", .bool true)]
      witCtx witEnv [] [] witData " hello "
      rfl rfl rfl (fun _ _ => rfl) rfl rfl rfl,
   output_extraction.2.2.1
      [("user_message", .str "hi"), ("isJsonResponse", .bool true),
        ("responseSchema", .str "\x7b\"type\": \"OBJECT\"\x7d")]
      witCtx witEnv [] [] witData "\x7b\"type\": \"OBJECT\"\x7d"
      (.obj [("type", .str "OBJECT")]) " hello "
      rfl rfl rfl (fun _ _ => rfl) rfl rfl (by decide) rfl rfl,
   output_extraction.2.2.2.1 witData " hello " rfl,
   output_extraction.2.2.2.2.2.1 witData "STOP" rfl,
   output_extraction.2.2.2.2.2.2.2.1 witData [("totalTokenCount", .num 42)] rfl,
   output_extraction.2.2.2.2.1 (.obj []) rfl,
   output_extraction.2.2.2.2.2.2.1 (.obj []) rfl,
   output_extraction.2.2.2.2.2.2.2.2.1 (.obj []) rfl,
   by decide, by decide⟩

/-- C3 (modelled from the spec): validation of the conversation-file fields
rejects a payload missing `processLastConversationFile`, and one with it
`true` but missing `conversationId`, each with an empty network trace (no
conversation lookup). -/
theorem conversation_validation :
    (∀ o : JsObj, lookupField o "processLastConversationFile" = none →
      validateConversationInput o =
        some "Missing required property: processLastConversationFile" ∧
      specConversationStep o =
        ([], some (mkOut 400
          "Invalid input: Missing required property: processLastConversationFile" []))) ∧
    (∀ o : JsObj, lookupField o "processLastConversationFile" = some (.bool true) →
      lookupField o "conversationId" = none →
      validateConversationInput o = some "Missing required property: conversationId" ∧
      specConversationStep o =
        ([], some (mkOut 400
          "Invalid input: Missing required property: conversationId" []))) := by
  constructor
  · intro o h
    have hv : validateConversationInput o =
        some "Missing required property: processLastConversationFile" := by
      unfold validateConversationInput
      rw [h]
    refine ⟨hv, ?_⟩
    unfold specConversationStep
    rw [hv]
    rfl
  · intro o h hc
    have hv : validateConversationInput o =
        some "Missing required property: conversationId" := by
      unfold validateConversationInput
      rw [h]
      simp [hc]
    refine ⟨hv, ?_⟩
    unfold specConversationStep
    rw [hv]
    rfl

/-- C3 witness: the two rejection cases at concrete payloads. -/
theorem conversation_validation_witness :
    (validateConversationInput [("user_message", .str "hi")] =
        some "Missing required property: processLastConversationFile" ∧
      specConversationStep [("user_message", .str "hi")] =
        ([], some (mkOut 400
          "Invalid input: Missing required property: processLastConversationFile" []))) ∧
    (validateConversationInput [("processLastConversationFile", .bool true)] =
        some "Missing required property: conversationId" ∧
      specConversationStep [("processLastConversationFile", .bool true)] =
        ([], some (mkOut 400
          "Invalid input: Missing required property: conversationId" []))) :=
  ⟨conversation_validation.1 [("user_message", .str "hi")] rfl,
   conversation_validation.2 [("processLastConversationFile", .bool true)] rfl rfl⟩

/-- C4 counterexample: with `temperature` and `max_tokens` omitted, the
generation call carries 0.3 and 1024 — not 0.2 and 4096 as claimed. -/
theorem generation_defaults_counterexample :
    (generateBodies
        (runWithPayload (.obj [("user_message", .str "hi")]) witCtx witEnv).1).map
        (fun b => (b.generationConfig.temperature, b.generationConfig.maxOutputTokens)) =
      [(.num (mkRat 3 10), .num 1024)] ∧
    JsVal.num (mkRat 3 10) ≠ .num (mkRat 2 10) ∧
    JsVal.num 1024 ≠ .num 4096 := by
  refine ⟨by decide, by decide, by decide⟩

/-- C4 witness: the amended defaults evaluated on a concrete run. -/
theorem generation_defaults_witness :
    lookupField [("user_message", JsVal.str "hi")] "temperature" = none ∧
    lookupField [("user_message", JsVal.str "hi")] "max_tokens" = none ∧
    ((generateBodies
        (runWithPayload (.obj [("user_message", .str "hi")]) witCtx witEnv).1).all
      (fun b => b.generationConfig.temperature == .num (mkRat 3 10) &&
        b.generationConfig.maxOutputTokens == .num 1024)) = true := by
  refine ⟨rfl, rfl, ?_⟩
  rw [List.all_eq_true]
  intro b hb
  have h1 := (generation_defaults [("user_message", JsVal.str "hi")] witCtx witEnv).1 rfl b hb
  have h2 := (generation_defaults [("user_message", JsVal.str "hi")] witCtx witEnv).2 rfl b hb
  simp [h1, h2]

theorem processModality_err_wf (o : JsObj) (creds : GcCreds) (env : Env)
    (urlKey fileType displayName downloadMsg uploadMsg : String) (t : List NetCall)
    (r : JsObj)
    (h : processModality o creds env urlKey fileType displayName downloadMsg uploadMsg
      = (t, .error r)) :
    isWellFormedOut r := by
  cases hl : lookupField o urlKey with
  | none =>
    simp [processModality, hl] at h
  | some urlVal =>
    by_cases ht : isTruthy urlVal = true
    · cases urlVal with
      | null => simp [isTruthy] at ht
      | bool b =>
        simp only [processModality, hl, ht, Bool.not_true, if_neg, ite_false] at h
        simp at h
        rw [← h.2]
        exact mkOut_wf ..
      | num q =>
        simp only [processModality, hl, ht] at h
        simp at h
        rw [← h.2]
        exact mkOut_wf ..
      | arr l =>
        simp only [processModality, hl, ht] at h
        simp at h
        rw [← h.2]
        exact mkOut_wf ..
      | obj fs =>
        simp only [processModality, hl, ht] at h
        simp at h
        rw [← h.2]
        exact mkOut_wf ..
      | str url =>
        cases hf : fetchFile url fileType creds env with
        | mk tf rf =>
          cases rf with
          | error m =>
            simp [processModality, hl, ht, hf] at h
            rw [← h.2]
            exact mkOut_wf ..
          | ok bytes =>
            cases hu : uploadFile bytes (guessMimeType url fileType) displayName env with
            | mk tu ru =>
              cases ru with
              | error e =>
                simp [processModality, hl, ht, hf, hu] at h
                rw [← h.2]
                exact mkOut_wf ..
              | ok uri =>
                simp [processModality, hl, ht, hf, hu] at h
    · simp [processModality, hl, ht] at h

theorem collectUploads_err_wf (o : JsObj) (creds : GcCreds) (env : Env)
    (t : List NetCall) (r : JsObj)
    (h : collectUploads o creds env = (t, .error r)) :
    isWellFormedOut r := by
  unfold collectUploads at h
  split at h
  next t1 r1 heq =>
    have h2 := congrArg Prod.snd h
    simp only [Except.error.injEq] at h2
    rw [← h2]
    exact processModality_err_wf _ _ _ _ _ _ _ _ _ _ heq
  next t1 u1 heq =>
    split at h
    next t2 r2 heq2 =>
      have h2 := congrArg Prod.snd h
      simp only [Except.error.injEq] at h2
      rw [← h2]
      exact processModality_err_wf _ _ _ _ _ _ _ _ _ _ heq2
    next t2 u2 heq2 =>
      split at h
      next t3 r3 heq3 =>
        have h2 := congrArg Prod.snd h
        simp only [Except.error.injEq] at h2
        rw [← h2]
        exact processModality_err_wf _ _ _ _ _ _ _ _ _ _ heq3
      next t3 u3 heq3 =>
        exact absurd (congrArg Prod.snd h) (by simp)

theorem runValidated_wf (o : JsObj) (ctx : Ctx) (env : Env) :
    isWellFormedOut (runValidated o ctx env).2 := by
  by_cases hk : strTruthy ctx.ccGoogleApiKey = true
  · cases hcu : collectUploads o
        ⟨pickCred ctx.hdrGcClientId ctx.ccGcClientId,
          pickCred ctx.hdrGcClientSecret ctx.ccGcClientSecret⟩ env with
    | mk t r =>
      cases r with
      | error resp =>
        unfold runValidated
        rw [if_neg (by simp [hk]), hcu]
        exact collectUploads_err_wf _ _ _ _ _ hcu
      | ok us =>
        unfold runValidated
        rw [if_neg (by simp [hk]), hcu]
        dsimp only
        split
        next response heq =>
          by_cases hj : (jsTruthyOpt (lookupField o "isJsonResponse") = true ∧
              jsTruthyOpt (lookupField o "responseSchema") = true)
          · rw [if_pos hj] at heq
            cases hsv : lookupField o "responseSchema" with
            | none =>
              rw [hsv] at heq
              dsimp only at heq
              simp only [Except.error.injEq] at heq
              rw [← heq]
              exact mkOut_wf ..
            | some sv =>
              rw [hsv] at heq
              cases sv with
              | str schemaStr =>
                dsimp only at heq
                cases hp : jsonParseE schemaStr with
                | error m =>
                  rw [hp] at heq
                  simp only [Except.error.injEq] at heq
                  rw [← heq]
                  exact mkOut_wf ..
                | ok parsed =>
                  rw [hp] at heq
                  exact absurd heq (by simp)
              | null =>
                dsimp only at heq
                simp only [Except.error.injEq] at heq
                rw [← heq]
                exact mkOut_wf ..
              | bool v =>
                dsimp only at heq
                simp only [Except.error.injEq] at heq
                rw [← heq]
                exact mkOut_wf ..
              | num v =>
                dsimp only at heq
                simp only [Except.error.injEq] at heq
                rw [← heq]
                exact mkOut_wf ..
              | arr v =>
                dsimp only at heq
                simp only [Except.error.injEq] at heq
                rw [← heq]
                exact mkOut_wf ..
              | obj v =>
                dsimp only at heq
                simp only [Except.error.injEq] at heq
                rw [← heq]
                exact mkOut_wf ..
          · rw [if_neg hj] at heq
            exact absurd heq (by simp)
        next gc heq =>
          dsimp only
          split
          · exact mkOut_wf ..
          next data heq2 =>
            split
            · exact mkOut_wf ..
            · exact mkOut_wf ..
  · unfold runValidated
    rw [if_pos (by simp [hk])]
    exact mkOut_wf ..

theorem runWithPayload_wf (payload : JsVal) (ctx : Ctx) (env : Env) :
    isWellFormedOut (runWithPayload payload ctx env).2 := by
  unfold runWithPayload
  split
  · exact mkOut_wf ..
  · exact mkOut_wf ..
  · split
    · exact runValidated_wf _ _ _
    · exact mkOut_wf ..

theorem handler_wf (rawRequest : Option String) (eventPayload : JsVal) (ctx : Ctx)
    (env : Env) : isWellFormedOut (handler rawRequest eventPayload ctx env).2 := by
  unfold handler
  split
  · split
    · exact runWithPayload_wf _ _ _
    · split
      · exact mkOut_wf ..
      · exact runWithPayload_wf _ _ _
  · exact runWithPayload_wf _ _ _

/-- C10: every object the handler passes to its callback has a numeric
`status` and a string `message`; `formatOutput` preserves all key/value
pairs of its argument (declared fields plus pass-through extras) whenever
`status` and `message` are both present, and otherwise returns exactly the
fixed 500 object. -/
theorem output_contract :
    (∀ out : JsObj, (lookupField out "status").isSome = true →
      (lookupField out "message").isSome = true →
      (out.map Prod.fst).Nodup →
      (∀ kv ∈ out, kv ∈ formatOutput out) ∧ (∀ kv ∈ formatOutput out, kv ∈ out)) ∧
    (∀ out : JsObj,
      lookupField out "status" = none ∨ lookupField out "message" = none →
      formatOutput out =
        [("status", .num 500),
         ("message", .str "Internal error: missing required output property")]) ∧
    (∀ (rawRequest : Option String) (eventPayload : JsVal) (ctx : Ctx) (env : Env),
      isWellFormedOut (handler rawRequest eventPayload ctx env).2) := by
  refine ⟨?_, fun out h => formatOutput_eq_500 h, handler_wf⟩
  intro out hs hm hn
  have hfo := formatOutput_eq_of_present hs hm
  constructor
  · intro kv hkv
    rw [hfo]
    by_cases hk : kv.1 ∈ outputKeys
    · apply List.mem_append_left
      obtain ⟨k, v⟩ := kv
      exact mem_fmtKnown.mpr ⟨hk, lookupField_of_mem hn hkv⟩
    · apply List.mem_append_right
      rw [List.mem_filter]
      refine ⟨hkv, ?_⟩
      cases hfind : (fmtKnown out).find? (fun kw => kw.1 == kv.1) with
      | none => simp
      | some kw =>
        exfalso
        have hp := List.find?_some hfind
        simp only [beq_iff_eq] at hp
        have hmem := List.mem_of_find?_eq_some hfind
        obtain ⟨a, b⟩ := kw
        simp only at hp
        exact hk (hp ▸ (mem_fmtKnown.mp hmem).1)
  · intro kv hkv
    rw [hfo] at hkv
    rcases List.mem_append.mp hkv with h1 | h1
    · obtain ⟨k, v⟩ := kv
      exact mem_of_lookupField (mem_fmtKnown.mp h1).2
    · exact (List.mem_filter.mp h1).1

/-- C10 witness: the contract evaluated at concrete objects and a concrete
handler run. -/
theorem output_contract_witness :
    (("foo", JsVal.num 1) ∈ formatOutput
      [("status", .num 200), ("message", .str "ok"), ("foo", .num 1)]) ∧
    formatOutput [("foo", .num 1)] =
      [("status", .num 500),
       ("message", .str "Internal error: missing required output property")] ∧
    isWellFormedOut (handler none (.obj []) witCtx witEnv).2 :=
  ⟨(output_contract.1 [("status", .num 200), ("message", .str "ok"), ("foo", .num 1)]
      (by decide) (by decide) (by decide)).1 ("foo", .num 1) (by decide),
   output_contract.2.1 [("foo", .num 1)] (Or.inl rfl),
   output_contract.2.2 none (.obj []) witCtx witEnv⟩

end GeminiFn
